import Mathlib

/-!
Shallow embedding of the DupliCheck core (duplicate-feature detection engine)
and proofs about it.

Modelling conventions:
* Python floats are modelled as `ℚ`; feature ids as `ℤ`; strings as `String`.
* A `Geom` records exactly the observations the core makes of a `QgsGeometry`
  (nullity, multipart flag, type code, centroid, bounding box, area).
* Operations performed by external collaborators (the QGIS geometry engine,
  `hashlib.md5`, Unicode tables, `datetime.strptime`, Python's dynamic value
  comparison and `str()`) are passed in as function parameters, bundled in
  `GeomOps` / `PyOps`.  The repository's own code is translated directly.
-/

namespace DupliCheck

/-- A planar point as observed through the geometry engine (`QgsPointXY`). -/
structure Point where
  x : ℚ
  y : ℚ
deriving DecidableEq, Repr

/-- Embedding of `QgsRectangle`: an axis-aligned rectangle. -/
structure Rect where
  xmin : ℚ
  ymin : ℚ
  xmax : ℚ
  ymax : ℚ
deriving DecidableEq, Repr

/-- Embedding of `QgsRectangle.grow(t)`: buffer the rectangle by `t` on all sides. -/
def Rect.grow (r : Rect) (t : ℚ) : Rect :=
  ⟨r.xmin - t, r.ymin - t, r.xmax + t, r.ymax + t⟩

/-- Embedding of `QgsRectangle.isEmpty()`: width or height is non-positive. -/
def Rect.isEmpty (r : Rect) : Bool :=
  decide (r.xmax ≤ r.xmin) || decide (r.ymax ≤ r.ymin)

/-- Embedding of `QgsRectangle.intersects(other)` (touching rectangles intersect). -/
def Rect.intersects (a b : Rect) : Bool :=
  decide (a.xmin ≤ b.xmax) && decide (b.xmin ≤ a.xmax) &&
  decide (a.ymin ≤ b.ymax) && decide (b.ymin ≤ a.ymax)

/-- Embedding of `QgsRectangle.intersect(other)`: the overlapping rectangle. -/
def Rect.intersect (a b : Rect) : Rect :=
  ⟨max a.xmin b.xmin, max a.ymin b.ymin, min a.xmax b.xmax, min a.ymax b.ymax⟩

/-- Embedding of `QgsRectangle.area()`. -/
def Rect.rectArea (r : Rect) : ℚ :=
  (r.xmax - r.xmin) * (r.ymax - r.ymin)

/-- A geometry, recording exactly the observations the core makes of a
`QgsGeometry`: nullity, multipart flag, `type()` code (2 = polygon), the
centroid (`none` when `centroid()` is null, i.e. degenerate geometry),
the bounding box and the area. -/
structure Geom where
  isNull : Bool
  isMultipart : Bool
  gtype : ℤ
  centroid : Option Point
  bbox : Rect
  area : ℚ
deriving DecidableEq, Repr

/-- External geometry-engine and hashing operations consumed by the core:
`hashlib.md5(..).hexdigest()`, `asWkb()`, `removeDuplicateNodes()`,
`snappedToGrid(hx, hy)`, `normalize()` (polygon ring orientation),
point distance, `hausdorffDistance` (`none` models the raised exception),
and `asGeometryCollection()` for multipart decomposition. -/
structure GeomOps where
  md5 : List ℕ → String
  asWkb : Geom → List ℕ
  removeDuplicateNodes : Geom → Geom
  snappedToGrid : ℚ → ℚ → Geom → Geom
  normalizeRings : Geom → Geom
  distance : Point → Point → ℚ
  hausdorff : Geom → Geom → Option ℚ
  parts : Geom → List Geom

/-- Configuration of `GeometryChecker` (src/core/geometry_checker.py). -/
structure GeometryChecker where
  tolerance : ℚ
  compare_method : ℤ
  decompose_multipart : Bool
  precision : ℤ
deriving DecidableEq, Repr

namespace GeometryChecker

/-- Embedding of `GeometryChecker._normalize_geometry`: remove duplicate
vertices, snap to a `10^-precision` grid when `precision > 0`, and normalize
ring orientation for polygon-typed (`type() == 2`) geometries. -/
def normalizeGeometry (ops : GeomOps) (chk : GeometryChecker) (geometry : Geom) : Geom :=
  if geometry.isNull then geometry
  else
    let g1 := ops.removeDuplicateNodes geometry
    let g2 :=
      if 0 < chk.precision then
        let snap : ℚ := (10 : ℚ) ^ (-chk.precision)
        ops.snappedToGrid snap snap g1
      else g1
    if g2.gtype = 2 then ops.normalizeRings g2 else g2

/-- Embedding of `GeometryChecker.hash_geometry`: the fixed sentinel `"NULL"`
for a null geometry, otherwise the md5 hex digest of the normalized WKB. -/
def hash_geometry (ops : GeomOps) (chk : GeometryChecker) (geometry : Geom) : String :=
  if geometry.isNull then "NULL"
  else ops.md5 (ops.asWkb (normalizeGeometry ops chk geometry))

/-- Embedding of `GeometryChecker._compare_wkb`. -/
def compareWkb (ops : GeomOps) (chk : GeometryChecker) (geom1 geom2 : Geom) :
    Bool × ℚ × String :=
  let hash1 := hash_geometry ops chk geom1
  let hash2 := hash_geometry ops chk geom2
  if hash1 = hash2 then (true, 1, "Exact WKB match")
  else (false, 0, "WKB mismatch")

/-- Embedding of `GeometryChecker._compare_centroid`. -/
def compareCentroid (ops : GeomOps) (geom1 geom2 : Geom) (tolerance : ℚ) :
    Bool × ℚ × String :=
  match geom1.centroid, geom2.centroid with
  | some c1, some c2 =>
    let distance := ops.distance c1 c2
    if distance ≤ tolerance then
      let score : ℚ := if 0 < tolerance then 1 - distance / tolerance else 1
      (true, max (1 / 2) score, "Centroid distance: " ++ toString distance)
    else (false, 0, "Centroid distance " ++ toString distance ++ " exceeds tolerance")
  | _, _ => (false, 0, "Could not compute centroid")

/-- Embedding of `GeometryChecker._compare_hausdorff`; a `none` Hausdorff
distance models the raised exception, handled by falling back to centroids. -/
def compareHausdorff (ops : GeomOps) (geom1 geom2 : Geom) (tolerance : ℚ) :
    Bool × ℚ × String :=
  match ops.hausdorff geom1 geom2 with
  | none => compareCentroid ops geom1 geom2 tolerance
  | some distance =>
    if distance ≤ tolerance then
      let score : ℚ := if 0 < tolerance then 1 - distance / tolerance else 1
      (true, max (1 / 2) score, "Hausdorff distance: " ++ toString distance)
    else (false, 0, "Hausdorff distance " ++ toString distance ++ " exceeds tolerance")

/-- Embedding of `GeometryChecker._compare_bbox`. -/
def compareBbox (geom1 geom2 : Geom) (tolerance : ℚ) : Bool × ℚ × String :=
  let bbox1 := geom1.bbox
  let bbox2 := geom2.bbox
  if bbox1.isEmpty || bbox2.isEmpty then (false, 0, "Empty bounding box")
  else
    let b1 := bbox1.grow tolerance
    let b2 := bbox2.grow tolerance
    if b1.intersects b2 then
      let inter := b1.intersect b2
      let union_area := b1.rectArea + b2.rectArea - inter.rectArea
      if 0 < union_area then
        let overlap_ratio := inter.rectArea / union_area
        if (9 : ℚ) / 10 < overlap_ratio then
          (true, overlap_ratio, "BBox overlap: " ++ toString overlap_ratio)
        else (false, 0, "Insufficient bounding box overlap")
      else (false, 0, "Insufficient bounding box overlap")
    else (false, 0, "Insufficient bounding box overlap")

/-- Embedding of `GeometryChecker._compare_single`: dispatch on the configured
comparison method (0 = WKB hash, 1 = centroid, 2 = Hausdorff, 3 = bbox,
anything else falls back to WKB hash). -/
def compareSingle (ops : GeomOps) (chk : GeometryChecker) (geom1 geom2 : Geom)
    (tolerance : ℚ) : Bool × ℚ × String :=
  if chk.compare_method = 0 then compareWkb ops chk geom1 geom2
  else if chk.compare_method = 1 then compareCentroid ops geom1 geom2 tolerance
  else if chk.compare_method = 2 then compareHausdorff ops geom1 geom2 tolerance
  else if chk.compare_method = 3 then compareBbox geom1 geom2 tolerance
  else compareWkb ops chk geom1 geom2

/-- Embedding of `GeometryChecker._get_parts`. -/
def getParts (ops : GeomOps) (geometry : Geom) : List Geom :=
  if geometry.isNull then []
  else if geometry.isMultipart then ops.parts geometry
  else [geometry]

/-- Embedding of `GeometryChecker.compare`.  The optional `tol?` argument
models the Python default `tolerance=None` (fall back to `self.tolerance`).
Null geometries never match; with multipart decomposition the first matching
part pair (g1 parts outer, g2 parts inner) decides. -/
def compare (ops : GeomOps) (chk : GeometryChecker) (geom1 geom2 : Geom)
    (tol? : Option ℚ) : Bool × ℚ × String :=
  let tolerance := tol?.getD chk.tolerance
  if geom1.isNull || geom2.isNull then
    (false, 0, "One or both geometries are NULL")
  else if chk.decompose_multipart then
    let parts1 := getParts ops geom1
    let parts2 := getParts ops geom2
    let firstMatch :=
      parts1.findSome? fun p1 =>
        parts2.findSome? fun p2 =>
          let r := compareSingle ops chk p1 p2 tolerance
          if r.1 then some r else none
    firstMatch.getD (false, 0, "No matching parts found")
  else compareSingle ops chk geom1 geom2 tolerance

end GeometryChecker

/-- A trivial instantiation of the external geometry operations, used to
evaluate the embedding on concrete inputs. -/
def trivialOps : GeomOps where
  md5 := fun bytes => String.intercalate "." (bytes.map toString)
  asWkb := fun _ => []
  removeDuplicateNodes := id
  snappedToGrid := fun _ _ g => g
  normalizeRings := id
  distance := fun p q => (p.x - q.x) * (p.x - q.x) + (p.y - q.y) * (p.y - q.y)
  hausdorff := fun _ _ => none
  parts := fun _ => []

/-- A concrete null geometry. -/
def nullGeom : Geom :=
  { isNull := true, isMultipart := false, gtype := 0, centroid := none
    bbox := ⟨0, 0, 0, 0⟩, area := 0 }

/-- A dynamically-typed Python attribute value as the core observes it:
a string, a number (`int`/`float` collapse to `ℚ`), a date, or any other
object represented by its `str()` rendering.  A NULL (or `QVariant` null)
value is represented by `Option.none` at use sites. -/
inductive Value where
  | vstr (s : String)
  | vnum (q : ℚ)
  | vdate (d : ℤ)
  | vother (s : String)
deriving DecidableEq, Repr

/-- A feature: an id, a geometry, and an ordered mapping field name → value
(`none` = NULL).  A field name absent from `attrs` models a `KeyError`. -/
structure Feature where
  id : ℤ
  geom : Geom
  attrs : List (String × Option Value)
deriving DecidableEq, Repr

/-- Embedding of `feature[field_name]` followed by the NULL check in the
source: a missing field (`KeyError`) and a null `QVariant` both collapse to
NULL (`none`). -/
def Feature.rawValue (f : Feature) (name : String) : Option Value :=
  match f.attrs.lookup name with
  | none => none
  | some v => v

/-- A vector layer: validity flag, features, schema field names, and the
layer geometry type code (2 = polygon). -/
structure Layer where
  isValid : Bool
  features : List Feature
  fieldNames : List String
  geometryType : ℤ
deriving Repr

/-- Configuration of `AttributeChecker` (src/core/attribute_checker.py). -/
structure AttributeChecker where
  fields : List String
  normalize : Bool
  ignore_null : Bool
  case_sensitive : Bool
  fuzzy_threshold : ℚ
deriving Repr

namespace AttributeChecker

/-- Embedding of the string part of `AttributeChecker._normalize_value`:
strip, Unicode NFKC (external table, passed as `nfkc`), lowercase unless
case-sensitive, and collapse whitespace runs to single spaces
(`' '.join(value.split())`). -/
def normalizeString (nfkc : String → String) (chk : AttributeChecker) (s : String) : String :=
  let s1 := s.trim
  let s2 := nfkc s1
  let s3 := if chk.case_sensitive then s2 else s2.toLower
  String.intercalate " " ((s3.split Char.isWhitespace).filter (fun w => w ≠ ""))

/-- Embedding of `AttributeChecker._normalize_value`: strings are normalized,
numbers pass through, any other value is stringified (its `str()` rendering)
and normalized as a string. -/
def normalizeValue (nfkc : String → String) (chk : AttributeChecker) : Value → Value
  | .vstr s => .vstr (normalizeString nfkc chk s)
  | .vnum q => .vnum q
  | .vdate d => .vstr (normalizeString nfkc chk (toString d))
  | .vother s => .vstr (normalizeString nfkc chk s)

/-- Embedding of the loop body of `AttributeChecker.get_key`: walk the
configured fields accumulating values; on a NULL value with `ignore_null`
set, abort with no key. -/
def getKeyGo (nfkc : String → String) (chk : AttributeChecker) (f : Feature) :
    List String → List (Option Value) → Option (List (Option Value))
  | [], acc => some acc.reverse
  | name :: rest, acc =>
    match f.rawValue name with
    | none =>
      if chk.ignore_null then none
      else getKeyGo nfkc chk f rest (none :: acc)
    | some v =>
      let v' := if chk.normalize then normalizeValue nfkc chk v else v
      getKeyGo nfkc chk f rest (some v' :: acc)

/-- Embedding of `AttributeChecker.get_key`: the ordered tuple of (possibly
normalized) field values, or `none` when the feature is excluded from
grouping. -/
def get_key (nfkc : String → String) (chk : AttributeChecker) (f : Feature) :
    Option (List (Option Value)) :=
  getKeyGo nfkc chk f chk.fields []

/-- Inner loop of `AttributeChecker._levenshtein_distance`: build the tail of
the next DP row.  `last` is the most recently computed entry of the current
row; the walked `prev` list supplies `previous_row[j]` and `previous_row[j+1]`. -/
def levRowAux (c1 : Char) : List Char → List ℕ → ℕ → List ℕ
  | c2 :: s2, pj :: pj1 :: rest, last =>
    let insertions := pj1 + 1
    let deletions := last + 1
    let substitutions := pj + (if c1 = c2 then 0 else 1)
    let entry := min insertions (min deletions substitutions)
    entry :: levRowAux c1 s2 (pj1 :: rest) entry
  | _, _, _ => []

/-- One iteration of the outer loop of `_levenshtein_distance`: from the
previous row and the row index `i`, compute the full next row
(`current_row = [i + 1] ++ ...`). -/
def levNextRow (c1 : Char) (s2 : List Char) (prev : List ℕ) (i : ℕ) : List ℕ :=
  (i + 1) :: levRowAux c1 s2 prev (i + 1)

/-- Outer loop of `_levenshtein_distance`: fold the rows over the characters
of `s1`. -/
def levRows (s2 : List Char) : List Char → List ℕ → ℕ → List ℕ
  | [], prev, _ => prev
  | c1 :: s1, prev, i => levRows s2 s1 (levNextRow c1 s2 prev i) (i + 1)

/-- Core of `_levenshtein_distance` after the length-ordering swap: rolling
single-row dynamic programming, returning `previous_row[-1]`. -/
def levCore (l1 l2 : List Char) : ℕ :=
  if l2.length = 0 then l1.length
  else ((levRows l2 l1 (List.range (l2.length + 1)) 0).getLast?).getD 0

/-- Embedding of `AttributeChecker._levenshtein_distance`.  The source first
recurses once with swapped arguments when `len(s1) < len(s2)`; that single
unfolding is inlined here (the guard makes the swapped call terminal). -/
def levenshteinDistance (s1 s2 : String) : ℕ :=
  if s1.data.length < s2.data.length then levCore s2.data s1.data
  else levCore s1.data s2.data

/-- Embedding of `AttributeChecker._levenshtein_similarity`. -/
def levenshteinSimilarity (s1 s2 : String) : ℚ :=
  if s1 = s2 then 1
  else if s1.data.length = 0 ∨ s2.data.length = 0 then 0
  else
    let distance := levenshteinDistance s1 s2
    let max_len : ℕ := max s1.data.length s2.data.length
    1 - (distance : ℚ) / (max_len : ℚ)

/-- Per-field similarity used by `AttributeChecker._calculate_similarity`. -/
def fieldSimilarity : Option Value → Option Value → ℚ
  | none, none => 1
  | none, some _ => 0
  | some _, none => 0
  | some (.vstr a), some (.vstr b) => levenshteinSimilarity a b
  | some v1, some v2 => if v1 = v2 then 1 else 0

/-- Embedding of `AttributeChecker._calculate_similarity`: zero for keys of
different arity, otherwise the mean of the per-field similarities. -/
def calculateSimilarity (key1 key2 : List (Option Value)) : ℚ :=
  if key1.length ≠ key2.length then 0
  else
    let sims := (key1.zip key2).map fun p => fieldSimilarity p.1 p.2
    if sims.length = 0 then 0 else sims.sum / (sims.length : ℚ)

/-- Embedding of `AttributeChecker.compare`: features without a key never
match; equal keys match with score 1; otherwise fuzzy matching applies when a
positive threshold is configured. -/
def compare (nfkc : String → String) (chk : AttributeChecker) (f1 f2 : Feature) :
    Bool × ℚ × String :=
  match get_key nfkc chk f1, get_key nfkc chk f2 with
  | none, _ => (false, 0, "One or both features have NULL key values")
  | some _, none => (false, 0, "One or both features have NULL key values")
  | some key1, some key2 =>
    if key1 = key2 then
      (true, 1, "Exact match on fields: " ++ String.intercalate ", " chk.fields)
    else if 0 < chk.fuzzy_threshold then
      let similarity := calculateSimilarity key1 key2
      if chk.fuzzy_threshold ≤ similarity then
        (true, similarity, "Fuzzy match")
      else (false, 0, "No match")
    else (false, 0, "No match")

end AttributeChecker

/-- Embedding of the `DuplicateGroup` dataclass (src/core/detector.py).
`metadata` is typed at its sole use (the attribute key under `'key'`). -/
structure DuplicateGroup where
  feature_ids : Finset ℤ
  detection_type : String
  confidence_score : ℚ
  match_reason : String
  suggested_keep : Option ℤ
  metadata : List (String × List (Option Value))
deriving DecidableEq

/-- Insert into an ascending list (structural recursion, so that concrete
runs evaluate inside the kernel). -/
def insertAsc (x : ℤ) : List ℤ → List ℤ
  | [] => [x]
  | y :: ys => if x ≤ y then x :: y :: ys else y :: insertAsc x ys

/-- Ascending insertion sort over `ℤ`. -/
def sortAsc (l : List ℤ) : List ℤ := l.foldr insertAsc []

lemma mem_insertAsc (x a : ℤ) : ∀ l : List ℤ, a ∈ insertAsc x l ↔ a = x ∨ a ∈ l := by
  intro l
  induction l with
  | nil => simp [insertAsc]
  | cons y ys ih =>
    by_cases hx : x ≤ y
    · simp [insertAsc, hx]
    · simp [insertAsc, hx, ih]
      tauto

lemma mem_sortAsc (a : ℤ) : ∀ l : List ℤ, a ∈ sortAsc l ↔ a ∈ l := by
  intro l
  induction l with
  | nil => simp [sortAsc]
  | cons y ys ih =>
    show a ∈ insertAsc y (sortAsc ys) ↔ _
    rw [mem_insertAsc]
    simp [ih]

lemma insertAsc_comm (x y : ℤ) : ∀ l, insertAsc x (insertAsc y l) = insertAsc y (insertAsc x l) := by
  intro l
  induction l with
  | nil =>
    by_cases hxy : x ≤ y
    · by_cases hyx : y ≤ x
      · have : x = y := le_antisymm hxy hyx
        subst this; rfl
      · simp [insertAsc, hxy, hyx]
    · by_cases hyx : y ≤ x
      · simp [insertAsc, hxy, hyx]
      · omega
  | cons a l ih =>
    by_cases hya : y ≤ a <;> by_cases hxa : x ≤ a
    · by_cases hxy : x ≤ y
      · by_cases hyx : y ≤ x
        · have : x = y := le_antisymm hxy hyx
          subst this; rfl
        · simp [insertAsc, hya, hxa, hxy, hyx]
      · have hyx : y ≤ x := by omega
        simp [insertAsc, hya, hxa, hxy, hyx]
    · have hxy : ¬ x ≤ y := by omega
      simp [insertAsc, hya, hxa, hxy]
    · have hyx : ¬ y ≤ x := by omega
      have hxy : x ≤ y := by omega
      simp [insertAsc, hya, hxa, hxy, hyx]
    · simp [insertAsc, hya, hxa, ih]

instance : LeftCommutative insertAsc := ⟨insertAsc_comm⟩

/-- Iteration order of a Python set of feature ids, modelled as ascending
id order (CPython iterates small-int sets in value order). -/
def setIterList (s : Finset ℤ) : List ℤ := Multiset.foldr insertAsc [] s.val

lemma mem_setIterList (a : ℤ) (s : Finset ℤ) : a ∈ setIterList s ↔ a ∈ s := by
  unfold setIterList
  rcases s with ⟨m, hm⟩
  revert hm
  refine Quot.inductionOn m ?_
  intro l hm
  show a ∈ sortAsc l ↔ _
  rw [mem_sortAsc]
  simp [Finset.mem_mk]

/-- Embedding of `DuplicateGroup.merge_with`: union the id sets and keep the
lower confidence score. -/
def DuplicateGroup.merge_with (self other : DuplicateGroup) : DuplicateGroup :=
  { self with
    feature_ids := self.feature_ids ∪ other.feature_ids
    confidence_score := min self.confidence_score other.confidence_score }

/-- Priority-rule configuration after the `rules.get(...)` defaulting in
`PriorityResolver.__init__` (`field_order` defaults to 0, `fid_fallback` to
`True`). -/
structure PriorityRules where
  field : Option String
  field_order : ℤ
  completeness : Bool
  area : Option String
  fid_fallback : Bool
deriving Repr

/-- Python `str()` of a value, used by the date-rule lexical fallback. -/
def Value.pyStr : Value → String
  | .vstr s => s
  | .vnum q => toString q
  | .vdate d => toString d
  | .vother s => s

/-- Python dynamic `>` on values: comparable within one type, `none` models
the `TypeError` raised on mixed or unordered types. -/
def Value.pyGt : Value → Value → Option Bool
  | .vstr a, .vstr b => some (decide (b < a))
  | .vnum a, .vnum b => some (decide (b < a))
  | .vdate a, .vdate b => some (decide (b < a))
  | _, _ => none

/-- Python dynamic `<` on values (`none` models `TypeError`). -/
def Value.pyLt : Value → Value → Option Bool
  | .vstr a, .vstr b => some (decide (a < b))
  | .vnum a, .vnum b => some (decide (a < b))
  | .vdate a, .vdate b => some (decide (a < b))
  | _, _ => none

/-- Loop of Python's `max`/`min` with a key function: keep the current best,
replace it when the candidate beats it; `none` models a raised `TypeError`. -/
def pySelectGo (beats : β → β → Option Bool) (key : α → β) : α → List α → Option α
  | best, [] => some best
  | best, x :: xs =>
    match beats (key x) (key best) with
    | none => none
    | some true => pySelectGo beats key x xs
    | some false => pySelectGo beats key best xs

/-- Python `max(xs, key=...)` / `min(xs, key=...)` depending on `beats`;
ties keep the earlier element, `none` models `TypeError` (or an empty input). -/
def pySelect (beats : β → β → Option Bool) (key : α → β) : List α → Option α
  | [] => none
  | a :: rest => pySelectGo beats key a rest

namespace PriorityResolver

/-- Embedding of `PriorityResolver._parse_date`: a datetime value parses to
itself; a string is tried against the fixed format list via the external
`strptime` (format, stripped string); anything else fails. -/
def parseDate (strptime : String → String → Option ℤ) : Value → Option ℤ
  | .vdate d => some d
  | .vstr s =>
    let formats := ["%Y-%m-%d", "%Y/%m/%d", "%d-%m-%Y", "%d/%m/%Y",
                    "%Y-%m-%d %H:%M:%S", "%Y-%m-%dT%H:%M:%S", "%d/%m/%Y %H:%M:%S"]
    formats.findSome? fun fmt => strptime fmt s.trim
  | _ => none

/-- Embedding of `PriorityResolver._get_most_recent`: prefer parsed dates;
fall back to comparison of the `str()` forms when nothing parses. -/
def getMostRecent (strptime : String → String → Option ℤ) (values : List (ℤ × Value)) :
    Option ℤ :=
  let date_values := values.filterMap fun p => (parseDate strptime p.2).map fun d => (p.1, d)
  if date_values.isEmpty then
    (pySelect (fun a b => some (decide (b < a))) (fun p => Value.pyStr p.2) values).map Prod.fst
  else
    (pySelect (fun a b => some (decide (b < a))) Prod.snd date_values).map Prod.fst

/-- Embedding of `PriorityResolver._get_oldest`. -/
def getOldest (strptime : String → String → Option ℤ) (values : List (ℤ × Value)) :
    Option ℤ :=
  let date_values := values.filterMap fun p => (parseDate strptime p.2).map fun d => (p.1, d)
  if date_values.isEmpty then
    (pySelect (fun a b => some (decide (a < b))) (fun p => Value.pyStr p.2) values).map Prod.fst
  else
    (pySelect (fun a b => some (decide (a < b))) Prod.snd date_values).map Prod.fst

/-- Embedding of `PriorityResolver._apply_field_rule` over the fetched
feature dictionary (`fetched`, in insertion order). -/
def applyFieldRule (strptime : String → String → Option ℤ) (rules : PriorityRules)
    (fname : String) (fetched : List (ℤ × Feature)) (candidates : List ℤ) : Option ℤ :=
  let values : List (ℤ × Option Value) :=
    candidates.filterMap fun fid =>
      (fetched.lookup fid).map fun f => (fid, f.rawValue fname)
  let valid_values : List (ℤ × Value) :=
    values.filterMap fun p => p.2.map fun v => (p.1, v)
  if valid_values.isEmpty then none
  else if rules.field_order = 0 then
    (pySelect Value.pyGt Prod.snd valid_values).map Prod.fst
  else if rules.field_order = 1 then
    (pySelect Value.pyLt Prod.snd valid_values).map Prod.fst
  else if rules.field_order = 2 then getMostRecent strptime valid_values
  else if rules.field_order = 3 then getOldest strptime valid_values
  else none

/-- Embedding of `PriorityResolver._apply_completeness_rule`: the unique
candidate with the fewest NULL fields, or `None` on a tie. -/
def applyCompletenessRule (fetched : List (ℤ × Feature)) (candidates : List ℤ) :
    Option ℤ :=
  let null_counts : List (ℤ × ℕ) :=
    candidates.filterMap fun fid =>
      (fetched.lookup fid).map fun f =>
        (fid, (f.attrs.filter fun p => p.2 = none).length)
  match null_counts with
  | [] => none
  | c :: cs =>
    let min_nulls := cs.foldl (fun m p => min m p.2) c.2
    let best := (null_counts.filter fun p => p.2 = min_nulls).map Prod.fst
    if best.length = 1 then best.head? else none

/-- Embedding of `PriorityResolver._apply_area_rule`: largest/smallest
non-null geometry area. -/
def applyAreaRule (rules : PriorityRules) (fetched : List (ℤ × Feature))
    (candidates : List ℤ) : Option ℤ :=
  match rules.area with
  | none => none
  | some arule =>
    if arule = "" then none
    else
      let areas : List (ℤ × ℚ) :=
        candidates.filterMap fun fid =>
          (fetched.lookup fid).bind fun f =>
            if f.geom.isNull then none else some (fid, f.geom.area)
      if areas.isEmpty then none
      else if arule = "largest" then
        (pySelect (fun a b => some (decide (b < a))) Prod.snd areas).map Prod.fst
      else if arule = "smallest" then
        (pySelect (fun a b => some (decide (a < b))) Prod.snd areas).map Prod.fst
      else none

/-- Build the Python dict `{f.id(): f for f in ...}`: overwriting keeps the
first insertion position but the last value. -/
def dictInsert (k : ℤ) (v : Feature) : List (ℤ × Feature) → List (ℤ × Feature)
  | [] => [(k, v)]
  | (k0, v0) :: rest =>
    if k0 = k then (k0, v) :: rest else (k0, v0) :: dictInsert k v rest

/-- Fetch the group's features from the layer, as
`{f.id(): f for f in layer.getFeatures(request)}`. -/
def fetchFeatures (layer : Layer) (fids : Finset ℤ) : List (ℤ × Feature) :=
  (layer.features.filter fun f => f.id ∈ fids).foldl
    (fun acc f => dictInsert f.id f acc) []

/-- Python truthiness of an optional feature id (`if result:` treats both
`None` and id 0 as no answer). -/
def truthyFid : Option ℤ → Option ℤ
  | none => none
  | some v => if v = 0 then none else some v

/-- Embedding of `PriorityResolver._resolve_group`: rule chain
field → completeness → area → fid fallback, where a rule's answer is accepted
only when truthy (Python `if result:`), and the fallback returns the minimum
candidate id.  Small groups (the defensive `< 2` branch) return their sole
member (set order modelled as ascending id order) or `None`. -/
def resolveGroup (strptime : String → String → Option ℤ) (layer : Layer)
    (rules : PriorityRules) (group : DuplicateGroup) : Option ℤ :=
  if group.feature_ids.card < 2 then (setIterList group.feature_ids).head?
  else
    let fetched := fetchFeatures layer group.feature_ids
    let candidates := fetched.map Prod.fst
    if fetched.isEmpty then none
    else
      let step1 : Option ℤ :=
        match rules.field with
        | some fname =>
          if fname ≠ "" ∧ fname ∈ layer.fieldNames then
            truthyFid (applyFieldRule strptime rules fname fetched candidates)
          else none
        | none => none
      match step1 with
      | some v => some v
      | none =>
        let step2 : Option ℤ :=
          if rules.completeness then truthyFid (applyCompletenessRule fetched candidates)
          else none
        match step2 with
        | some v => some v
        | none =>
          let step3 : Option ℤ :=
            match rules.area with
            | some arule =>
              if arule ≠ "" ∧ layer.geometryType = 2 then
                truthyFid (applyAreaRule rules fetched candidates)
              else none
            | none => none
          match step3 with
          | some v => some v
          | none => if rules.fid_fallback then candidates.min? else none

/-- Embedding of `PriorityResolver.resolve`: populate `suggested_keep` on
every group. -/
def resolve (strptime : String → String → Option ℤ) (layer : Layer)
    (rules : PriorityRules) (groups : List DuplicateGroup) : List DuplicateGroup :=
  groups.map fun g => { g with suggested_keep := resolveGroup strptime layer rules g }

end PriorityResolver

namespace DuplicateDetector

/-- Append `v` to the bucket of key `k` (`defaultdict(list)`), preserving
first-occurrence key order as Python dicts do. -/
def bucketAdd [DecidableEq κ] (k : κ) (v : ℤ) : List (κ × List ℤ) → List (κ × List ℤ)
  | [] => [(k, [v])]
  | (k0, vs) :: rest =>
    if k0 = k then (k0, vs ++ [v]) :: rest else (k0, vs) :: bucketAdd k v rest

/-- Embedding of `DuplicateDetector._detect_by_hash`: bucket non-null
geometries by hash, keep buckets with at least two members. -/
def detectByHash (ops : GeomOps) (chk : GeometryChecker) (features : List Feature) :
    List DuplicateGroup :=
  let hash_groups :=
    features.foldl
      (fun bs f =>
        if f.geom.isNull then bs
        else bucketAdd (GeometryChecker.hash_geometry ops chk f.geom) f.id bs)
      []
  hash_groups.filterMap fun bucket =>
    if 1 < bucket.2.length then
      some { feature_ids := bucket.2.toFinset, detection_type := "geometry",
             confidence_score := 1, match_reason := "Exact WKB match",
             suggested_keep := none, metadata := [] }
    else none

/-- Embedding of `self._feature_cache.get(cid)` where the cache is the dict
`{f.id(): f}` over the indexed features (a repeated id keeps the last
feature). -/
def featureCacheFind (features : List Feature) (cid : ℤ) : Option Feature :=
  features.foldl (fun acc f => if f.id = cid then some f else acc) none

/-- State of the candidate scan inside one seed iteration of
`_detect_by_tolerance`: the matched candidate ids (in discovery order) and
the Python local `score` (the score of the most recent comparison, `none`
while no comparison has run). -/
structure TolScan where
  dups : List ℤ
  last : Option ℚ
deriving Repr

/-- Candidate loop of `_detect_by_tolerance`: skip the seed itself, already
assigned candidates, candidates missing from the cache, and null geometries;
compare the rest, recording every comparison's score and collecting matches. -/
def toleranceScan (cmp : Geom → Geom → ℚ → Bool × ℚ × String)
    (cache : ℤ → Option Feature) (processed : Finset ℤ) (tolerance : ℚ)
    (fid : ℤ) (geom : Geom) : List ℤ → TolScan → TolScan
  | [], st => st
  | cid :: rest, st =>
    if cid = fid ∨ cid ∈ processed then
      toleranceScan cmp cache processed tolerance fid geom rest st
    else
      match cache cid with
      | none => toleranceScan cmp cache processed tolerance fid geom rest st
      | some candidate =>
        if candidate.geom.isNull then
          toleranceScan cmp cache processed tolerance fid geom rest st
        else
          let r := cmp geom candidate.geom tolerance
          toleranceScan cmp cache processed tolerance fid geom rest
            { dups := if r.1 then st.dups ++ [cid] else st.dups, last := some r.2.1 }

/-- State of the seed loop of `_detect_by_tolerance`: the `processed` set,
the groups found so far, and the function-wide Python local `score`
(which persists across seed iterations). -/
structure TolState where
  processed : Finset ℤ
  groups : List DuplicateGroup
  lastScore : Option ℚ

/-- One seed iteration of `_detect_by_tolerance`.  A group is created when
any candidate matched; its confidence is `score if 'score' in dir() else
0.9`, i.e. the most recent comparison's score anywhere in the call, with 0.9
when no comparison has ever run. -/
def toleranceStep (cmp : Geom → Geom → ℚ → Bool × ℚ × String)
    (queryIdx : Rect → List ℤ) (cache : ℤ → Option Feature) (tolerance : ℚ)
    (st : TolState) (f : Feature) : TolState :=
  if f.id ∈ st.processed then st
  else if f.geom.isNull then st
  else
    let search_rect := f.geom.bbox.grow tolerance
    let candidate_ids := queryIdx search_rect
    let scan := toleranceScan cmp cache st.processed tolerance f.id f.geom candidate_ids
      ⟨[], st.lastScore⟩
    let duplicates := f.id :: scan.dups
    if 1 < duplicates.length then
      let group : DuplicateGroup :=
        { feature_ids := duplicates.toFinset, detection_type := "geometry",
          confidence_score := scan.last.getD (9 / 10),
          match_reason := "Within " ++ toString tolerance ++ " tolerance",
          suggested_keep := none, metadata := [] }
      { processed := st.processed ∪ duplicates.toFinset,
        groups := st.groups ++ [group], lastScore := scan.last }
    else
      { st with processed := insert f.id st.processed, lastScore := scan.last }

/-- Embedding of `DuplicateDetector._detect_by_tolerance`: iterate the
features in dataset order as group seeds. -/
def detectByTolerance (cmp : Geom → Geom → ℚ → Bool × ℚ × String)
    (queryIdx : Rect → List ℤ) (cache : ℤ → Option Feature) (tolerance : ℚ)
    (features : List Feature) : List DuplicateGroup :=
  (features.foldl (toleranceStep cmp queryIdx cache tolerance) ⟨∅, [], none⟩).groups

/-- Reading of the tolerance pass following the spec's words: identical to
`toleranceStep` except that a group's confidence is the last score computed
by its own seed's candidate comparisons (0.9 if that seed ran none), with no
state leaking across seeds. -/
def toleranceStepOwnScore (cmp : Geom → Geom → ℚ → Bool × ℚ × String)
    (queryIdx : Rect → List ℤ) (cache : ℤ → Option Feature) (tolerance : ℚ)
    (st : Finset ℤ × List DuplicateGroup) (f : Feature) : Finset ℤ × List DuplicateGroup :=
  if f.id ∈ st.1 then st
  else if f.geom.isNull then st
  else
    let search_rect := f.geom.bbox.grow tolerance
    let candidate_ids := queryIdx search_rect
    let scan := toleranceScan cmp cache st.1 tolerance f.id f.geom candidate_ids ⟨[], none⟩
    let duplicates := f.id :: scan.dups
    if 1 < duplicates.length then
      let group : DuplicateGroup :=
        { feature_ids := duplicates.toFinset, detection_type := "geometry",
          confidence_score := scan.last.getD (9 / 10),
          match_reason := "Within " ++ toString tolerance ++ " tolerance",
          suggested_keep := none, metadata := [] }
      (st.1 ∪ duplicates.toFinset, st.2 ++ [group])
    else (insert f.id st.1, st.2)

/-- Tolerance pass as described by the spec's words (per-seed confidence). -/
def detectByToleranceOwnScore (cmp : Geom → Geom → ℚ → Bool × ℚ × String)
    (queryIdx : Rect → List ℤ) (cache : ℤ → Option Feature) (tolerance : ℚ)
    (features : List Feature) : List DuplicateGroup :=
  (features.foldl (toleranceStepOwnScore cmp queryIdx cache tolerance) (∅, [])).2

/-- Embedding of `DuplicateDetector._detect_attribute_duplicates`: raises
(`Except.error`) on an empty field list; otherwise buckets features by their
attribute key, skipping keyless features. -/
def detectAttributeDuplicates (nfkc : String → String) (fields : List String)
    (normalize_attributes ignore_null : Bool) (features : List Feature) :
    Except String (List DuplicateGroup) :=
  if fields.isEmpty then .error "No fields specified for attribute detection"
  else
    let checker : AttributeChecker :=
      { fields := fields, normalize := normalize_attributes,
        ignore_null := ignore_null, case_sensitive := false, fuzzy_threshold := 0 }
    let key_groups :=
      features.foldl
        (fun bs f =>
          match AttributeChecker.get_key nfkc checker f with
          | none => bs
          | some key => bucketAdd key f.id bs)
        []
    .ok <| key_groups.filterMap fun bucket =>
      if 1 < bucket.2.length then
        some { feature_ids := bucket.2.toFinset, detection_type := "attribute",
               confidence_score := 1,
               match_reason := "Matching fields: " ++ String.intercalate ", " fields,
               suggested_keep := none, metadata := [("key", bucket.1)] }
      else none

/-- Replace the `n`-th element of a list in place (`consolidated[idx]` update
through the aliased `feature_to_group` reference). -/
def listUpdate : List α → ℕ → (α → α) → List α
  | [], _, _ => []
  | a :: rest, 0, f => f a :: rest
  | a :: rest, n + 1, f => a :: listUpdate rest n f

/-- Loop of `DuplicateDetector._consolidate_groups`.  The accepted groups are
an arena indexed by position; `fmap` is the `feature_to_group` map (id →
arena index).  For each incoming group, the first of its members (set
iteration modelled as ascending id order) already present in `fmap` selects
the accepted group to merge into; otherwise the group is appended.  In both
cases only the incoming group's members are (re)pointed at the target. -/
def consolidateGo : List DuplicateGroup → List DuplicateGroup → (ℤ → Option ℕ) →
    List DuplicateGroup
  | [], consolidated, _ => consolidated
  | group :: rest, consolidated, fmap =>
    match (setIterList group.feature_ids).findSome? fmap with
    | some idx =>
      consolidateGo rest (listUpdate consolidated idx fun eg => eg.merge_with group)
        fun x => if x ∈ group.feature_ids then some idx else fmap x
    | none =>
      let idx := consolidated.length
      consolidateGo rest (consolidated ++ [group])
        fun x => if x ∈ group.feature_ids then some idx else fmap x

/-- Embedding of `DuplicateDetector._consolidate_groups`. -/
def consolidateGroups (groups : List DuplicateGroup) : List DuplicateGroup :=
  consolidateGo groups [] fun _ => none

/-- Constructor arguments of `DuplicateDetector` that the claims exercise.
A missing (`None`) layer is `layer = none`; `priority_rules = none` models
the falsy empty rules dict. -/
structure DetectorConfig where
  layer : Option Layer
  detection_type : String
  tolerance : ℚ
  compare_method : ℤ
  decompose_multipart : Bool
  fields : List String
  normalize_attributes : Bool
  ignore_null : Bool
  priority_rules : Option PriorityRules
  sample_mode : Bool
  sample_size : ℕ

/-- The features processed by one run: the full layer, or the drawn sample
(`sampled`, an external random choice) when sampling is active and the layer
is larger than the sample size. -/
def runFeatures (cfg : DetectorConfig) (layer : Layer) (sampled : List Feature) :
    List Feature :=
  if cfg.sample_mode ∧ cfg.sample_size < layer.features.length then sampled
  else layer.features

/-- Embedding of `DuplicateDetector.detect`: fail fast on an invalid or
missing layer; run the mode's detection pass (hash bucketing when
`tolerance == 0`, spatial-index tolerance scan otherwise, attribute
bucketing in attribute mode — which raises on an empty field list); apply
priority rules when configured; consolidate; return the group list.
`spatialIndex features` is the queryable index built from the processed
features, an external collaborator. -/
def detect (ops : GeomOps) (nfkc : String → String)
    (strptime : String → String → Option ℤ)
    (spatialIndex : List Feature → Rect → List ℤ) (sampled : List Feature)
    (cfg : DetectorConfig) : Except String (List DuplicateGroup) :=
  match cfg.layer with
  | none => .error "Invalid or missing layer"
  | some layer =>
    if ¬ layer.isValid then .error "Invalid or missing layer"
    else
      let features := runFeatures cfg layer sampled
      let detected : Except String (List DuplicateGroup) :=
        if cfg.detection_type = "geometry" then
          let checker : GeometryChecker :=
            { tolerance := cfg.tolerance, compare_method := cfg.compare_method,
              decompose_multipart := cfg.decompose_multipart, precision := 8 }
          if cfg.tolerance = 0 then .ok (detectByHash ops checker features)
          else
            .ok (detectByTolerance
              (fun g1 g2 t => GeometryChecker.compare ops checker g1 g2 (some t))
              (spatialIndex features) (featureCacheFind features)
              cfg.tolerance features)
        else
          detectAttributeDuplicates nfkc cfg.fields cfg.normalize_attributes
            cfg.ignore_null features
      detected.map fun groups =>
        let resolved :=
          match cfg.priority_rules with
          | some rules => PriorityResolver.resolve strptime layer rules groups
          | none => groups
        consolidateGroups resolved

end DuplicateDetector

/-! Lemmas about the Levenshtein dynamic program (claim C8).  For the
self-comparison `distance(s, s)` the DP rows consist of the index gaps
`|i - j|` (the edit distance between two prefixes of the same string), which
we capture with `dgap` and `dgapRow`. -/

/-- Natural-number distance `|i - j|`. -/
def dgap (i j : ℕ) : ℕ := (i - j) + (j - i)

/-- The list `[dgap i j, dgap i (j+1), ..., dgap i (j+m-1)]`. -/
def dgapRow (i j : ℕ) : ℕ → List ℕ
  | 0 => []
  | m + 1 => dgap i j :: dgapRow i (j + 1) m

namespace AttributeChecker

lemma levRowAux_dgap (c1 : Char) (i : ℕ) :
    ∀ (cs : List Char) (j : ℕ),
      (∀ t (ht : t < cs.length), j + t = i → cs.get ⟨t, ht⟩ = c1) →
      levRowAux c1 cs (dgapRow i j (cs.length + 1)) (dgap (i + 1) j) =
        dgapRow (i + 1) (j + 1) cs.length := by
  intro cs
  induction cs with
  | nil => intro j _; rfl
  | cons c2 cs' ih =>
    intro j hchar
    have hrow : dgapRow i j (cs'.length + 1 + 1) =
        dgap i j :: dgap i (j + 1) :: dgapRow i (j + 1 + 1) cs'.length := by
      simp [dgapRow]
    have hentry :
        min (dgap i (j + 1) + 1)
          (min (dgap (i + 1) j + 1) (dgap i j + (if c1 = c2 then 0 else 1))) =
        dgap (i + 1) (j + 1) := by
      by_cases hj : j = i
      · have : c2 = c1 := by
          have := hchar 0 (by simp) (by omega)
          simpa using this
        subst hj this
        simp [dgap]
      · by_cases hc : c1 = c2 <;> simp [hc, dgap] <;> omega
    show levRowAux c1 (c2 :: cs') (dgapRow i j (cs'.length + 1 + 1)) (dgap (i + 1) j) =
      dgapRow (i + 1) (j + 1) (cs'.length + 1)
    rw [hrow]
    show (min (dgap i (j + 1) + 1)
        (min (dgap (i + 1) j + 1) (dgap i j + (if c1 = c2 then 0 else 1)))) ::
        levRowAux c1 cs' (dgap i (j + 1) :: dgapRow i (j + 1 + 1) cs'.length)
          (min (dgap i (j + 1) + 1)
            (min (dgap (i + 1) j + 1) (dgap i j + (if c1 = c2 then 0 else 1)))) =
      dgapRow (i + 1) (j + 1) (cs'.length + 1)
    rw [hentry]
    have htail : levRowAux c1 cs' (dgapRow i (j + 1) (cs'.length + 1)) (dgap (i + 1) (j + 1)) =
        dgapRow (i + 1) (j + 1 + 1) cs'.length := by
      apply ih
      intro t ht hti
      have := hchar (t + 1) (by simpa using Nat.succ_lt_succ ht) (by omega)
      simpa using this
    simp only [dgapRow] at htail ⊢
    rw [← htail]

lemma levNextRow_dgap (l : List Char) (i : ℕ) (hi : i < l.length) :
    levNextRow (l.get ⟨i, hi⟩) l (dgapRow i 0 (l.length + 1)) i =
      dgapRow (i + 1) 0 (l.length + 1) := by
  have h0 : dgap (i + 1) 0 = i + 1 := by simp [dgap]
  have haux := levRowAux_dgap (l.get ⟨i, hi⟩) i l 0 (by
    intro t ht hti
    have : t = i := by omega
    subst this
    rfl)
  rw [h0] at haux
  show (i + 1) :: levRowAux (l.get ⟨i, hi⟩) l (dgapRow i 0 (l.length + 1)) (i + 1) =
    dgapRow (i + 1) 0 (l.length + 1)
  rw [haux]
  rw [show dgapRow (i + 1) 0 (l.length + 1) =
    dgap (i + 1) 0 :: dgapRow (i + 1) (0 + 1) l.length from rfl]
  rw [h0]

lemma levRows_dgap (l : List Char) :
    ∀ (cs : List Char) (i : ℕ), i + cs.length = l.length →
      (∀ t (ht : t < cs.length) (hl : i + t < l.length), cs.get ⟨t, ht⟩ = l.get ⟨i + t, hl⟩) →
      levRows l cs (dgapRow i 0 (l.length + 1)) i = dgapRow l.length 0 (l.length + 1) := by
  intro cs
  induction cs with
  | nil =>
    intro i hlen _
    have : i = l.length := by simpa using hlen
    subst this
    rfl
  | cons c1 cs' ih =>
    intro i hlen hchar
    have hi : i < l.length := by simp at hlen; omega
    have hc1 : c1 = l.get ⟨i, hi⟩ := by
      have := hchar 0 (by simp) (by omega)
      simpa using this
    show levRows l cs' (levNextRow c1 l (dgapRow i 0 (l.length + 1)) i) (i + 1) =
      dgapRow l.length 0 (l.length + 1)
    rw [hc1, levNextRow_dgap l i hi]
    apply ih
    · simp at hlen ⊢; omega
    · intro t ht hl
      have := hchar (t + 1) (by simpa using Nat.succ_lt_succ ht) (by omega)
      simpa [Nat.add_assoc, Nat.add_comm 1 t] using this

lemma dgapRow_zero (m j : ℕ) : dgapRow 0 j m = List.range' j m := by
  induction m generalizing j with
  | zero => rfl
  | succ m ih => simp [dgapRow, dgap, List.range'_succ, ih]

lemma dgapRow_getLast? (i : ℕ) :
    ∀ (m j : ℕ), (dgapRow i j (m + 1)).getLast? = some (dgap i (j + m)) := by
  intro m
  induction m with
  | zero => intro j; rfl
  | succ m ih =>
    intro j
    show (dgap i j :: dgapRow i (j + 1) (m + 1)).getLast? = some (dgap i (j + (m + 1)))
    rw [show dgapRow i (j + 1) (m + 1) = dgap i (j + 1) :: dgapRow i (j + 1 + 1) m from rfl]
    rw [List.getLast?_cons_cons]
    rw [show dgap i (j + 1) :: dgapRow i (j + 1 + 1) m = dgapRow i (j + 1) (m + 1) from rfl]
    rw [ih (j + 1), show j + 1 + m = j + (m + 1) from by omega]

lemma levCore_self (l : List Char) : levCore l l = 0 := by
  unfold levCore
  by_cases h : l.length = 0
  · simp [h]
  · simp only [h, if_false]
    have hbase : List.range (l.length + 1) = dgapRow 0 0 (l.length + 1) := by
      rw [dgapRow_zero, List.range_eq_range']
    rw [hbase]
    rw [levRows_dgap l l 0 (by simp) (by intro t ht hl; simp)]
    obtain ⟨m, hm⟩ : ∃ m, l.length = m + 1 := ⟨l.length - 1, by omega⟩
    rw [hm, dgapRow_getLast? (m + 1) (m + 1) 0]
    simp [dgap]

lemma levenshteinDistance_self (s : String) : levenshteinDistance s s = 0 := by
  unfold levenshteinDistance
  rw [if_neg (Nat.lt_irrefl _)]
  exact levCore_self s.data

lemma levenshteinDistance_empty_left (s : String) :
    levenshteinDistance "" s = s.length := by
  unfold levenshteinDistance
  have hnil : ("" : String).data = [] := rfl
  by_cases h : s.data.length = 0
  · rw [if_neg (by rw [hnil]; omega)]
    unfold levCore
    rw [if_pos h, hnil]
    show 0 = s.length
    rw [String.length, h]
  · rw [if_pos (by rw [hnil]; simpa using Nat.pos_of_ne_zero h)]
    unfold levCore
    rw [hnil]
    rw [if_pos (show ([] : List Char).length = 0 from rfl)]
    rw [String.length]

lemma levenshteinDistance_empty_right (s : String) :
    levenshteinDistance s "" = s.length := by
  unfold levenshteinDistance
  have hnil : ("" : String).data = [] := rfl
  rw [if_neg (by simp [hnil])]
  unfold levCore
  rw [hnil, if_pos (show ([] : List Char).length = 0 from rfl), String.length]

end AttributeChecker

/-- C8: the Levenshtein implementation computes classic unit-cost edit
distance on the quoted examples — `distance("kitten","sitting") = 3`,
`distance("", "abc") = 3`, `distance("abc","abc") = 0` — the similarity of
two identical strings is exactly 1, and in general the distance between
equal strings is 0 while the distance against the empty string equals the
other string's length. -/
theorem C8_levenshtein_correctness :
    AttributeChecker.levenshteinDistance "kitten" "sitting" = 3 ∧
    AttributeChecker.levenshteinDistance "" "abc" = 3 ∧
    AttributeChecker.levenshteinDistance "abc" "abc" = 0 ∧
    (∀ s : String, AttributeChecker.levenshteinSimilarity s s = 1) ∧
    (∀ s : String, AttributeChecker.levenshteinDistance s s = 0) ∧
    (∀ s : String, AttributeChecker.levenshteinDistance "" s = s.length ∧
      AttributeChecker.levenshteinDistance s "" = s.length) := by
  refine ⟨by decide, by decide, by decide, ?_, ?_, ?_⟩
  · intro s; simp [AttributeChecker.levenshteinSimilarity]
  · intro s; exact AttributeChecker.levenshteinDistance_self s
  · intro s
    exact ⟨AttributeChecker.levenshteinDistance_empty_left s,
      AttributeChecker.levenshteinDistance_empty_right s⟩

/-! Claims C2 and C7: the geometry comparison methods. -/

/-- A concrete non-null point geometry used to instantiate theorems. -/
def ptGeomA : Geom :=
  { isNull := false, isMultipart := false, gtype := 0, centroid := some ⟨0, 0⟩
    bbox := ⟨0, 0, 0, 0⟩, area := 0 }

/-- A second concrete non-null geometry, centered at (3, 4). -/
def ptGeomB : Geom :=
  { isNull := false, isMultipart := false, gtype := 0, centroid := some ⟨3, 4⟩
    bbox := ⟨3, 4, 3, 4⟩, area := 0 }

/-- C2 (counterexample): for two null geometries the claimed equivalence
fails — their hashes are equal (both the `'NULL'` sentinel), yet
`compare` with the exact-hash method reports no match, because the null
check precedes any hashing. -/
theorem C2_counterexample_null_geometries :
    GeometryChecker.hash_geometry trivialOps ⟨0, 0, false, 8⟩ nullGeom =
      GeometryChecker.hash_geometry trivialOps ⟨0, 0, false, 8⟩ nullGeom ∧
    ¬ ((GeometryChecker.compare trivialOps ⟨0, 0, false, 8⟩ nullGeom nullGeom (some 0)).1 = true ∧
       (GeometryChecker.compare trivialOps ⟨0, 0, false, 8⟩ nullGeom nullGeom (some 0)).2.1 = 1) := by
  constructor
  · rfl
  · intro h
    exact absurd h.1 (by decide)

/-- C2 (amended): restricted to non-null geometries, hash equality is
equivalent to the exact-hash `compare` reporting a match with score 1.0;
two null geometries always hash-equal (both map to the `'NULL'` sentinel),
but `compare` reports no match whenever either operand is null. -/
theorem C2_exact_hash_symmetry_amended :
    (∀ (ops : GeomOps) (chk : GeometryChecker) (g1 g2 : Geom),
        chk.compare_method = 0 → chk.decompose_multipart = false →
        g1.isNull = false → g2.isNull = false →
        (GeometryChecker.hash_geometry ops chk g1 = GeometryChecker.hash_geometry ops chk g2 ↔
          (GeometryChecker.compare ops chk g1 g2 (some 0)).1 = true ∧
          (GeometryChecker.compare ops chk g1 g2 (some 0)).2.1 = 1)) ∧
    (∀ (ops : GeomOps) (chk : GeometryChecker) (g1 g2 : Geom),
        g1.isNull = true → g2.isNull = true →
        GeometryChecker.hash_geometry ops chk g1 = GeometryChecker.hash_geometry ops chk g2) ∧
    (∀ (ops : GeomOps) (chk : GeometryChecker) (g1 g2 : Geom) (tol? : Option ℚ),
        (g1.isNull = true ∨ g2.isNull = true) →
        (GeometryChecker.compare ops chk g1 g2 tol?).1 = false) := by
  refine ⟨?_, ?_, ?_⟩
  · intro ops chk g1 g2 hm hd h1 h2
    unfold GeometryChecker.compare GeometryChecker.compareSingle GeometryChecker.compareWkb
    simp only [h1, h2, hd, hm, Bool.or_self, Bool.false_eq_true, if_false, if_true,
      reduceIte]
    by_cases heq : GeometryChecker.hash_geometry ops chk g1 =
        GeometryChecker.hash_geometry ops chk g2
    · simp [heq]
    · simp [heq]
  · intro ops chk g1 g2 h1 h2
    unfold GeometryChecker.hash_geometry
    rw [h1, h2]
    rfl
  · intro ops chk g1 g2 tol? h
    unfold GeometryChecker.compare
    rcases h with h | h <;> simp [h]

/-- C2 (witness): the amended equivalence instantiated at a concrete
non-null geometry compared with itself. -/
theorem C2_exact_hash_witness :
    GeometryChecker.hash_geometry trivialOps ⟨0, 0, false, 8⟩ ptGeomA =
      GeometryChecker.hash_geometry trivialOps ⟨0, 0, false, 8⟩ ptGeomA ↔
    (GeometryChecker.compare trivialOps ⟨0, 0, false, 8⟩ ptGeomA ptGeomA (some 0)).1 = true ∧
    (GeometryChecker.compare trivialOps ⟨0, 0, false, 8⟩ ptGeomA ptGeomA (some 0)).2.1 = 1 :=
  C2_exact_hash_symmetry_amended.1 trivialOps ⟨0, 0, false, 8⟩ ptGeomA ptGeomA rfl rfl rfl rfl

lemma compareCentroid_none (ops : GeomOps) (g1 g2 : Geom) (tol : ℚ)
    (h : g1.centroid = none ∨ g2.centroid = none) :
    GeometryChecker.compareCentroid ops g1 g2 tol =
      (false, 0, "Could not compute centroid") := by
  unfold GeometryChecker.compareCentroid
  rcases h with h | h
  · rw [h]
  · rw [h]
    rcases g1.centroid with _ | c1 <;> rfl

lemma compareCentroid_some (ops : GeomOps) (g1 g2 : Geom) (tol : ℚ) (c1 c2 : Point)
    (hc1 : g1.centroid = some c1) (hc2 : g2.centroid = some c2) :
    GeometryChecker.compareCentroid ops g1 g2 tol =
      (if ops.distance c1 c2 ≤ tol then
        (true, max (1 / 2) (if 0 < tol then 1 - ops.distance c1 c2 / tol else 1),
          "Centroid distance: " ++ toString (ops.distance c1 c2))
       else
        (false, 0,
          "Centroid distance " ++ toString (ops.distance c1 c2) ++ " exceeds tolerance")) := by
  unfold GeometryChecker.compareCentroid
  rw [hc1, hc2]

lemma compare_centroid_method (ops : GeomOps) (chk : GeometryChecker) (g1 g2 : Geom)
    (tol : ℚ) (hm : chk.compare_method = 1) (hd : chk.decompose_multipart = false)
    (h1 : g1.isNull = false) (h2 : g2.isNull = false) :
    GeometryChecker.compare ops chk g1 g2 (some tol) =
      GeometryChecker.compareCentroid ops g1 g2 tol := by
  unfold GeometryChecker.compare GeometryChecker.compareSingle
  simp [h1, h2, hd, hm]

/-- C7: for non-null geometries under the centroid-distance method, the
comparison matches iff the engine's distance between the centroids is at
most the tolerance; on a match the score is `max(0.5, 1 - d/tol)` for a
positive tolerance and exactly 1 for tolerance 0 (the `else` branch also
covers non-positive tolerances); when either centroid cannot be computed
the result is no match. -/
theorem C7_centroid_distance_comparison :
    ∀ (ops : GeomOps) (chk : GeometryChecker) (g1 g2 : Geom) (tol : ℚ),
      chk.compare_method = 1 → chk.decompose_multipart = false →
      g1.isNull = false → g2.isNull = false →
      ((g1.centroid = none ∨ g2.centroid = none →
        (GeometryChecker.compare ops chk g1 g2 (some tol)).1 = false) ∧
      (∀ c1 c2, g1.centroid = some c1 → g2.centroid = some c2 →
        ((GeometryChecker.compare ops chk g1 g2 (some tol)).1 = true ↔
          ops.distance c1 c2 ≤ tol) ∧
        (ops.distance c1 c2 ≤ tol →
          (GeometryChecker.compare ops chk g1 g2 (some tol)).2.1 =
            if 0 < tol then max (1 / 2) (1 - ops.distance c1 c2 / tol) else 1))) := by
  intro ops chk g1 g2 tol hm hd h1 h2
  rw [compare_centroid_method ops chk g1 g2 tol hm hd h1 h2]
  constructor
  · intro h
    rw [compareCentroid_none ops g1 g2 tol h]
  · intro c1 c2 hc1 hc2
    rw [compareCentroid_some ops g1 g2 tol c1 c2 hc1 hc2]
    by_cases hle : ops.distance c1 c2 ≤ tol
    · constructor
      · simp [hle]
      · intro _
        rw [if_pos hle]
        show max (1 / 2 : ℚ) (if 0 < tol then 1 - ops.distance c1 c2 / tol else 1) = _
        by_cases htol : 0 < tol
        · rw [if_pos htol, if_pos htol]
        · rw [if_neg htol, if_neg htol]
          exact max_eq_right (by norm_num)
    · constructor
      · simp [hle]
      · intro h
        exact absurd h hle

/-- C7 (witness): the centroid comparison at two concrete geometries whose
centroids are (0,0) and (3,4), with tolerance 25. -/
theorem C7_centroid_witness :
    (GeometryChecker.compare trivialOps ⟨1, 1, false, 8⟩ ptGeomA ptGeomB (some 25)).1 = true ↔
      trivialOps.distance ⟨0, 0⟩ ⟨3, 4⟩ ≤ 25 :=
  ((C7_centroid_distance_comparison trivialOps ⟨1, 1, false, 8⟩ ptGeomA ptGeomB 25
    rfl rfl rfl rfl).2 ⟨0, 0⟩ ⟨3, 4⟩ rfl rfl).1

/-! Claim C6: key construction and null handling in attribute comparison. -/

namespace AttributeChecker

/-- The value contributed to the key by one configured field: NULL stays
NULL, non-null values are normalized when normalization is on. -/
def keyEntry (nfkc : String → String) (chk : AttributeChecker) (f : Feature)
    (name : String) : Option Value :=
  (f.rawValue name).map fun v => if chk.normalize then normalizeValue nfkc chk v else v

lemma getKeyGo_cons_none (nfkc : String → String) (chk : AttributeChecker) (f : Feature)
    (name : String) (rest : List String) (acc : List (Option Value))
    (h : f.rawValue name = none) :
    getKeyGo nfkc chk f (name :: rest) acc =
      if chk.ignore_null then none else getKeyGo nfkc chk f rest (none :: acc) := by
  simp only [getKeyGo, h]

lemma getKeyGo_cons_some (nfkc : String → String) (chk : AttributeChecker) (f : Feature)
    (name : String) (rest : List String) (acc : List (Option Value)) (v : Value)
    (h : f.rawValue name = some v) :
    getKeyGo nfkc chk f (name :: rest) acc =
      getKeyGo nfkc chk f rest
        (some (if chk.normalize then normalizeValue nfkc chk v else v) :: acc) := by
  simp only [getKeyGo, h]

lemma getKeyGo_closed (nfkc : String → String) (chk : AttributeChecker) (f : Feature) :
    ∀ (names : List String) (acc : List (Option Value)),
      getKeyGo nfkc chk f names acc =
        if chk.ignore_null = true ∧ ∃ name ∈ names, f.rawValue name = none then none
        else some (acc.reverse ++ names.map (keyEntry nfkc chk f)) := by
  intro names
  induction names with
  | nil => intro acc; simp [getKeyGo]
  | cons name rest ih =>
    intro acc
    cases hv : f.rawValue name with
    | none =>
      rw [getKeyGo_cons_none nfkc chk f name rest acc hv]
      by_cases hin : chk.ignore_null = true
      · rw [if_pos hin, if_pos ⟨hin, name, List.mem_cons_self name rest, hv⟩]
      · rw [if_neg hin, ih]
        rw [if_neg (fun h => hin h.1), if_neg (fun h => hin h.1)]
        simp [hv, keyEntry]
    | some v =>
      rw [getKeyGo_cons_some nfkc chk f name rest acc v hv, ih]
      by_cases hcond : chk.ignore_null = true ∧ ∃ n ∈ rest, f.rawValue n = none
      · rw [if_pos hcond]
        rw [if_pos ⟨hcond.1, by
          obtain ⟨n, hn, hraw⟩ := hcond.2
          exact ⟨n, List.mem_cons_of_mem name hn, hraw⟩⟩]
      · have hcond' : ¬ (chk.ignore_null = true ∧
            ∃ n ∈ name :: rest, f.rawValue n = none) := by
          rintro ⟨hin, n, hn, hraw⟩
          rcases List.mem_cons.mp hn with h | h
          · subst h; rw [hv] at hraw; exact Option.noConfusion hraw
          · exact hcond ⟨hin, n, h, hraw⟩
        rw [if_neg hcond, if_neg hcond']
        simp [hv, keyEntry]

lemma get_key_closed (nfkc : String → String) (chk : AttributeChecker) (f : Feature) :
    get_key nfkc chk f =
      if chk.ignore_null = true ∧ ∃ name ∈ chk.fields, f.rawValue name = none then none
      else some (chk.fields.map (keyEntry nfkc chk f)) := by
  unfold get_key
  rw [getKeyGo_closed]
  simp

end AttributeChecker

/-- C6: `get_key` returns no key exactly when `ignore_null` is enabled and
some configured field's value is NULL or missing; otherwise it returns the
ordered tuple of (normalized) values with NULLs participating as NULL.  In
`compare`, a pair where either feature has no key never matches (even when
both keys are absent), and two features with equal keys match with score 1. -/
theorem C6_null_key_handling :
    (∀ (nfkc : String → String) (chk : AttributeChecker) (f : Feature),
        AttributeChecker.get_key nfkc chk f = none ↔
          (chk.ignore_null = true ∧ ∃ name ∈ chk.fields, f.rawValue name = none)) ∧
    (∀ (nfkc : String → String) (chk : AttributeChecker) (f : Feature)
        (key : List (Option Value)),
        AttributeChecker.get_key nfkc chk f = some key →
          key = chk.fields.map (AttributeChecker.keyEntry nfkc chk f)) ∧
    (∀ (nfkc : String → String) (chk : AttributeChecker) (f1 f2 : Feature),
        (AttributeChecker.get_key nfkc chk f1 = none ∨
         AttributeChecker.get_key nfkc chk f2 = none) →
        AttributeChecker.compare nfkc chk f1 f2 =
          (false, 0, "One or both features have NULL key values")) ∧
    (∀ (nfkc : String → String) (chk : AttributeChecker) (f1 f2 : Feature)
        (key : List (Option Value)),
        AttributeChecker.get_key nfkc chk f1 = some key →
        AttributeChecker.get_key nfkc chk f2 = some key →
        AttributeChecker.compare nfkc chk f1 f2 =
          (true, 1, "Exact match on fields: " ++ String.intercalate ", " chk.fields)) := by
  refine ⟨?_, ?_, ?_, ?_⟩
  · intro nfkc chk f
    rw [AttributeChecker.get_key_closed]
    by_cases hcond : chk.ignore_null = true ∧ ∃ name ∈ chk.fields, f.rawValue name = none
    · simp [hcond]
    · simp [hcond]
  · intro nfkc chk f key hkey
    rw [AttributeChecker.get_key_closed] at hkey
    by_cases hcond : chk.ignore_null = true ∧ ∃ name ∈ chk.fields, f.rawValue name = none
    · rw [if_pos hcond] at hkey
      exact Option.noConfusion hkey
    · rw [if_neg hcond] at hkey
      exact (Option.some.injEq _ _ ▸ hkey).symm
  · intro nfkc chk f1 f2 h
    unfold AttributeChecker.compare
    rcases h with h | h
    · rw [h]
    · rw [h]
      rcases AttributeChecker.get_key nfkc chk f1 with _ | k <;> rfl
  · intro nfkc chk f1 f2 key h1 h2
    unfold AttributeChecker.compare
    rw [h1, h2]
    simp

/-- C6 (witness): two features with the same raw value on the single
configured field (normalization off) obtain equal keys and match exactly. -/
theorem C6_null_key_witness :
    AttributeChecker.compare id ⟨["name"], false, false, false, 0⟩
      ⟨1, nullGeom, [("name", some (.vstr "paris"))]⟩
      ⟨2, nullGeom, [("name", some (.vstr "paris"))]⟩ =
      (true, 1, "Exact match on fields: name") := by
  have h := C6_null_key_handling.2.2.2 id ⟨["name"], false, false, false, 0⟩
    ⟨1, nullGeom, [("name", some (.vstr "paris"))]⟩
    ⟨2, nullGeom, [("name", some (.vstr "paris"))]⟩
    [some (.vstr "paris")] (by rfl) (by rfl)
  rw [h]
  rfl

/-! Claim C3 (and support for C1, C9, C10): the tolerance-based geometry
pass.  `toleranceScan_spec` characterises one seed's candidate scan:
the matched ids do not depend on the inherited `score` local, the `score`
local after the scan is the scan's own last score unless the scan ran no
comparison, and every matched id is a fresh, cached, non-null candidate. -/

namespace DuplicateDetector

lemma toleranceScan_spec (cmp : Geom → Geom → ℚ → Bool × ℚ × String)
    (cache : ℤ → Option Feature) (processed : Finset ℤ) (tolerance : ℚ)
    (fid : ℤ) (geom : Geom) :
    ∀ (cands dups : List ℤ) (l : Option ℚ),
      (toleranceScan cmp cache processed tolerance fid geom cands ⟨dups, l⟩).dups =
        (toleranceScan cmp cache processed tolerance fid geom cands ⟨dups, none⟩).dups ∧
      ((toleranceScan cmp cache processed tolerance fid geom cands ⟨dups, none⟩).last = none →
        (toleranceScan cmp cache processed tolerance fid geom cands ⟨dups, l⟩).last = l) ∧
      (∀ s, (toleranceScan cmp cache processed tolerance fid geom cands ⟨dups, none⟩).last = some s →
        (toleranceScan cmp cache processed tolerance fid geom cands ⟨dups, l⟩).last = some s) ∧
      (l.isSome = true →
        (toleranceScan cmp cache processed tolerance fid geom cands ⟨dups, l⟩).last.isSome = true) ∧
      (∀ cid, cid ∈ (toleranceScan cmp cache processed tolerance fid geom cands ⟨dups, l⟩).dups →
        cid ∈ dups ∨ (¬ (cid = fid ∨ cid ∈ processed) ∧
          ∃ cf, cache cid = some cf ∧ cf.geom.isNull = false)) ∧
      ((toleranceScan cmp cache processed tolerance fid geom cands ⟨dups, l⟩).dups ≠ dups →
        (toleranceScan cmp cache processed tolerance fid geom cands ⟨dups, none⟩).last.isSome = true) := by
  intro cands
  induction cands with
  | nil =>
    intro dups l
    refine ⟨rfl, fun _ => rfl, fun s hs => Option.noConfusion hs, fun h => h,
      fun cid h => Or.inl h, fun h => absurd rfl h⟩
  | cons cid rest ih =>
    intro dups l
    by_cases h1 : cid = fid ∨ cid ∈ processed
    · simp only [toleranceScan, if_pos h1]
      exact ih dups l
    · simp only [toleranceScan, if_neg h1]
      cases hc : cache cid with
      | none => exact ih dups l
      | some candidate =>
        by_cases hn : candidate.geom.isNull = true
        · simp only [hn, if_true]
          exact ih dups l
        · simp only [hn, Bool.false_eq_true, if_false]
          have hns : candidate.geom.isNull = false := by
            revert hn; cases candidate.geom.isNull <;> simp
          have hsome := (ih (if (cmp geom candidate.geom tolerance).1 then dups ++ [cid] else dups)
            (some (cmp geom candidate.geom tolerance).2.1)).2.2.2.1 rfl
          refine ⟨?_, ?_, ?_, fun _ => hsome, ?_, fun _ => hsome⟩
          · trivial
          · intro hnone
            rw [hnone] at hsome
            simp at hsome
          · intro s' hs'
            exact hs'
          · intro c hcmem
            rcases (ih (if (cmp geom candidate.geom tolerance).1 then dups ++ [cid] else dups)
              (some (cmp geom candidate.geom tolerance).2.1)).2.2.2.2.1 c hcmem with hmem | hnew
            · by_cases hm : (cmp geom candidate.geom tolerance).1
              · rw [if_pos hm] at hmem
                rcases List.mem_append.mp hmem with h | h
                · exact Or.inl h
                · have : c = cid := by simpa using h
                  subst this
                  exact Or.inr ⟨h1, candidate, hc, hns⟩
              · rw [if_neg hm] at hmem
                exact Or.inl hmem
            · exact Or.inr hnew

lemma toleranceStep_eq_ownScore (cmp : Geom → Geom → ℚ → Bool × ℚ × String)
    (queryIdx : Rect → List ℤ) (cache : ℤ → Option Feature) (tolerance : ℚ)
    (st : TolState) (f : Feature) :
    ((toleranceStep cmp queryIdx cache tolerance st f).processed,
     (toleranceStep cmp queryIdx cache tolerance st f).groups) =
      toleranceStepOwnScore cmp queryIdx cache tolerance (st.processed, st.groups) f := by
  unfold toleranceStep toleranceStepOwnScore
  by_cases h1 : f.id ∈ st.processed
  · simp [h1]
  · by_cases h2 : f.geom.isNull = true
    · simp [h1, h2]
    · simp only [h1, h2, Bool.false_eq_true, if_false, if_neg h1]
      have spec := toleranceScan_spec cmp cache st.processed tolerance f.id f.geom
        (queryIdx (f.geom.bbox.grow tolerance)) [] st.lastScore
      have hdups : (toleranceScan cmp cache st.processed tolerance f.id f.geom
          (queryIdx (f.geom.bbox.grow tolerance)) ⟨[], st.lastScore⟩).dups =
        (toleranceScan cmp cache st.processed tolerance f.id f.geom
          (queryIdx (f.geom.bbox.grow tolerance)) ⟨[], none⟩).dups := spec.1
      by_cases hgrow : 1 < (f.id :: (toleranceScan cmp cache st.processed tolerance f.id f.geom
          (queryIdx (f.geom.bbox.grow tolerance)) ⟨[], st.lastScore⟩).dups).length
      · have hne : (toleranceScan cmp cache st.processed tolerance f.id f.geom
            (queryIdx (f.geom.bbox.grow tolerance)) ⟨[], st.lastScore⟩).dups ≠ [] := by
          intro hnil
          rw [hnil] at hgrow
          simp at hgrow
        have hOsome := spec.2.2.2.2.2 hne
        obtain ⟨s, hs⟩ := Option.isSome_iff_exists.mp hOsome
        have hFs : (toleranceScan cmp cache st.processed tolerance f.id f.geom
            (queryIdx (f.geom.bbox.grow tolerance)) ⟨[], st.lastScore⟩).last = some s :=
          spec.2.2.1 s hs
        rw [if_pos hgrow, if_pos (hdups ▸ hgrow)]
        simp only [hdups, hFs, hs]
      · rw [if_neg hgrow, if_neg (hdups ▸ hgrow)]

lemma toleranceFold_eq_ownScore (cmp : Geom → Geom → ℚ → Bool × ℚ × String)
    (queryIdx : Rect → List ℤ) (cache : ℤ → Option Feature) (tolerance : ℚ) :
    ∀ (features : List Feature) (st : TolState),
      ((features.foldl (toleranceStep cmp queryIdx cache tolerance) st).processed,
       (features.foldl (toleranceStep cmp queryIdx cache tolerance) st).groups) =
        features.foldl (toleranceStepOwnScore cmp queryIdx cache tolerance)
          (st.processed, st.groups) := by
  intro features
  induction features with
  | nil => intro st; rfl
  | cons f rest ih =>
    intro st
    show ((rest.foldl (toleranceStep cmp queryIdx cache tolerance)
        (toleranceStep cmp queryIdx cache tolerance st f)).processed,
      (rest.foldl (toleranceStep cmp queryIdx cache tolerance)
        (toleranceStep cmp queryIdx cache tolerance st f)).groups) =
      rest.foldl (toleranceStepOwnScore cmp queryIdx cache tolerance)
        (toleranceStepOwnScore cmp queryIdx cache tolerance (st.processed, st.groups) f)
    rw [← toleranceStep_eq_ownScore cmp queryIdx cache tolerance st f]
    exact ih (toleranceStep cmp queryIdx cache tolerance st f)

/-- The faithful tolerance pass and the spec-worded (per-seed confidence)
variant compute the same groups: whenever a group is created, its seed's
scan ran at least one comparison, so the function-wide `score` local equals
the scan's own last score. -/
lemma detectByTolerance_eq_ownScore (cmp : Geom → Geom → ℚ → Bool × ℚ × String)
    (queryIdx : Rect → List ℤ) (cache : ℤ → Option Feature) (tolerance : ℚ)
    (features : List Feature) :
    detectByTolerance cmp queryIdx cache tolerance features =
      detectByToleranceOwnScore cmp queryIdx cache tolerance features := by
  unfold detectByTolerance detectByToleranceOwnScore
  have h := toleranceFold_eq_ownScore cmp queryIdx cache tolerance features ⟨∅, [], none⟩
  exact congrArg Prod.snd h

/-- Invariant carried through the seed loop of the tolerance pass: group
members are marked processed, groups are pairwise disjoint, and every group
is a well-formed geometry group (type, reason, size ≥ 2, membership
predicate `P`). -/
def tolInv (tolerance : ℚ) (P : ℤ → Prop) (st : TolState) : Prop :=
  (∀ g ∈ st.groups, ∀ fid ∈ g.feature_ids, fid ∈ st.processed) ∧
  List.Pairwise (fun a b => Disjoint a.feature_ids b.feature_ids) st.groups ∧
  (∀ g ∈ st.groups, g.detection_type = "geometry" ∧
    g.match_reason = "Within " ++ toString tolerance ++ " tolerance" ∧
    2 ≤ g.feature_ids.card ∧ ∀ fid ∈ g.feature_ids, P fid)

lemma toleranceStep_inv (cmp : Geom → Geom → ℚ → Bool × ℚ × String)
    (queryIdx : Rect → List ℤ) (cache : ℤ → Option Feature) (tolerance : ℚ)
    (P : ℤ → Prop)
    (hcand : ∀ cid cf, cache cid = some cf → cf.geom.isNull = false → P cid)
    (st : TolState) (f : Feature) (hf : f.geom.isNull = false → P f.id)
    (hinv : tolInv tolerance P st) :
    tolInv tolerance P (toleranceStep cmp queryIdx cache tolerance st f) ∧
      ∀ x ∈ st.processed, x ∈ (toleranceStep cmp queryIdx cache tolerance st f).processed := by
  obtain ⟨hsub, hdisj, hgood⟩ := hinv
  unfold toleranceStep
  by_cases h1 : f.id ∈ st.processed
  · rw [if_pos h1]
    exact ⟨⟨hsub, hdisj, hgood⟩, fun x hx => hx⟩
  · rw [if_neg h1]
    by_cases h2 : f.geom.isNull = true
    · rw [if_pos h2]
      exact ⟨⟨hsub, hdisj, hgood⟩, fun x hx => hx⟩
    · have hns : f.geom.isNull = false := by revert h2; cases f.geom.isNull <;> simp
      rw [if_neg h2]
      have spec := toleranceScan_spec cmp cache st.processed tolerance f.id f.geom
        (queryIdx (f.geom.bbox.grow tolerance)) [] st.lastScore
      set scanRes := toleranceScan cmp cache st.processed tolerance f.id f.geom
        (queryIdx (f.geom.bbox.grow tolerance)) ⟨[], st.lastScore⟩ with hscan
      have hmem := spec.2.2.2.2.1
      -- every member of the new group: fresh (not processed), satisfies P
      have hmem' : ∀ c, c ∈ (f.id :: scanRes.dups).toFinset →
          (c ∉ st.processed) ∧ P c := by
        intro c hc
        rw [List.mem_toFinset, List.mem_cons] at hc
        rcases hc with hc | hc
        · subst hc
          exact ⟨h1, hf hns⟩
        · rcases hmem c hc with h | ⟨hfresh, cf, hcf, hcfn⟩
          · exact absurd h (List.not_mem_nil c)
          · exact ⟨fun hp => hfresh (Or.inr hp), hcand c cf hcf hcfn⟩
      by_cases hgrow : 1 < (f.id :: scanRes.dups).length
      · rw [if_pos hgrow]
        refine ⟨⟨?_, ?_, ?_⟩, ?_⟩
        · intro g hg fid hfid
          rcases List.mem_append.mp hg with hg | hg
          · exact Finset.mem_union_left _ (hsub g hg fid hfid)
          · have hgeq := List.mem_singleton.mp hg
            subst hgeq
            exact Finset.mem_union_right _ hfid
        · rw [List.pairwise_append]
          refine ⟨hdisj, List.pairwise_singleton _ _, ?_⟩
          intro a ha b hb
          have hbeq := List.mem_singleton.mp hb
          subst hbeq
          rw [Finset.disjoint_right]
          intro x hx
          intro hxa
          exact (hmem' x hx).1 (hsub a ha x hxa)
        · intro g hg
          rcases List.mem_append.mp hg with hg | hg
          · exact hgood g hg
          · have hgeq := List.mem_singleton.mp hg
            subst hgeq
            refine ⟨rfl, rfl, ?_, fun fid hfid => (hmem' fid hfid).2⟩
            -- card ≥ 2: the seed plus at least one distinct matched candidate
            have hne : scanRes.dups ≠ [] := by
              intro hnil
              rw [hnil] at hgrow
              simp at hgrow
            obtain ⟨c0, hc0⟩ := List.exists_mem_of_ne_nil _ hne
            have hc0ne : c0 ≠ f.id := by
              rcases hmem c0 hc0 with h | ⟨hfresh, _⟩
              · exact absurd h (List.not_mem_nil c0)
              · intro hEq
                exact hfresh (Or.inl hEq)
            exact Finset.one_lt_card.mpr
              ⟨f.id, by simp, c0, by simp [hc0], fun h => hc0ne h.symm⟩
        · intro x hx
          exact Finset.mem_union_left _ hx
      · rw [if_neg hgrow]
        refine ⟨⟨?_, hdisj, hgood⟩, ?_⟩
        · intro g hg fid hfid
          exact Finset.mem_insert_of_mem (hsub g hg fid hfid)
        · intro x hx
          exact Finset.mem_insert_of_mem hx

lemma toleranceFold_inv (cmp : Geom → Geom → ℚ → Bool × ℚ × String)
    (queryIdx : Rect → List ℤ) (cache : ℤ → Option Feature) (tolerance : ℚ)
    (P : ℤ → Prop)
    (hcand : ∀ cid cf, cache cid = some cf → cf.geom.isNull = false → P cid) :
    ∀ (features : List Feature) (st : TolState),
      (∀ f ∈ features, f.geom.isNull = false → P f.id) →
      tolInv tolerance P st →
      tolInv tolerance P (features.foldl (toleranceStep cmp queryIdx cache tolerance) st) := by
  intro features
  induction features with
  | nil => intro st _ hinv; exact hinv
  | cons f rest ih =>
    intro st hP hinv
    exact ih (toleranceStep cmp queryIdx cache tolerance st f)
      (fun f' hf' => hP f' (List.mem_cons_of_mem f hf'))
      (toleranceStep_inv cmp queryIdx cache tolerance P hcand st f
        (hP f (List.mem_cons_self f rest)) hinv).1

/-- Output facts about `_detect_by_tolerance`: groups are pairwise disjoint,
and every group is a geometry group with the tolerance recorded in its
reason, at least two members, all members satisfying any predicate `P`
established by the seeds (non-null features of the pass) and cached
candidates (non-null cached features). -/
lemma detectByTolerance_output (cmp : Geom → Geom → ℚ → Bool × ℚ × String)
    (queryIdx : Rect → List ℤ) (cache : ℤ → Option Feature) (tolerance : ℚ)
    (features : List Feature) (P : ℤ → Prop)
    (hseed : ∀ f ∈ features, f.geom.isNull = false → P f.id)
    (hcand : ∀ cid cf, cache cid = some cf → cf.geom.isNull = false → P cid) :
    List.Pairwise (fun a b => Disjoint a.feature_ids b.feature_ids)
      (detectByTolerance cmp queryIdx cache tolerance features) ∧
    ∀ g ∈ detectByTolerance cmp queryIdx cache tolerance features,
      g.detection_type = "geometry" ∧
      g.match_reason = "Within " ++ toString tolerance ++ " tolerance" ∧
      2 ≤ g.feature_ids.card ∧ ∀ fid ∈ g.feature_ids, P fid := by
  have h := toleranceFold_inv cmp queryIdx cache tolerance P hcand features ⟨∅, [], none⟩
    hseed ⟨by simp, List.Pairwise.nil, by simp⟩
  exact ⟨h.2.1, h.2.2⟩

end DuplicateDetector

/-- C3: in the tolerance-based pass, every created group's confidence equals
the last score computed by its own seed's candidate comparisons (0.9 when
none ran — the faithful embedding, whose `score` local persists across
seeds, provably coincides with this per-seed reading because a group is
only created after at least one comparison); every group's reason is
exactly `"Within {tolerance} tolerance"`; and groups are pairwise
disjoint — members are marked assigned and never reconsidered as seeds. -/
theorem C3_tolerance_group_confidence_and_assignment :
    ∀ (cmp : Geom → Geom → ℚ → Bool × ℚ × String) (queryIdx : Rect → List ℤ)
      (cache : ℤ → Option Feature) (tolerance : ℚ) (features : List Feature),
      DuplicateDetector.detectByTolerance cmp queryIdx cache tolerance features =
        DuplicateDetector.detectByToleranceOwnScore cmp queryIdx cache tolerance features ∧
      (∀ g ∈ DuplicateDetector.detectByTolerance cmp queryIdx cache tolerance features,
        g.match_reason = "Within " ++ toString tolerance ++ " tolerance") ∧
      List.Pairwise (fun a b => Disjoint a.feature_ids b.feature_ids)
        (DuplicateDetector.detectByTolerance cmp queryIdx cache tolerance features) := by
  intro cmp queryIdx cache tolerance features
  have hout := DuplicateDetector.detectByTolerance_output cmp queryIdx cache tolerance
    features (fun _ => True) (fun _ _ _ => trivial) (fun _ _ _ _ => trivial)
  exact ⟨DuplicateDetector.detectByTolerance_eq_ownScore cmp queryIdx cache tolerance features,
    fun g hg => (hout.2 g hg).2.1, hout.1⟩

/-- A comparison oracle that always matches with score 1/2. -/
def cmpHalf : Geom → Geom → ℚ → Bool × ℚ × String := fun _ _ _ => (true, 1 / 2, "m")

/-- Two concrete features with non-null geometries. -/
def featX : Feature := ⟨1, ptGeomA, []⟩

/-- Second concrete feature for small runs. -/
def featY : Feature := ⟨2, ptGeomB, []⟩

/-- C3 (witness): the claim instantiated at a concrete two-feature run in
which the index offers both ids as candidates. -/
theorem C3_tolerance_witness :
    DuplicateDetector.detectByTolerance cmpHalf (fun _ => [1, 2])
        (DuplicateDetector.featureCacheFind [featX, featY]) 1 [featX, featY] =
      DuplicateDetector.detectByToleranceOwnScore cmpHalf (fun _ => [1, 2])
        (DuplicateDetector.featureCacheFind [featX, featY]) 1 [featX, featY] :=
  (C3_tolerance_group_confidence_and_assignment cmpHalf (fun _ => [1, 2])
    (DuplicateDetector.featureCacheFind [featX, featY]) 1 [featX, featY]).1

/-! Bucket machinery shared by the hash pass and the attribute pass
(claims C1, C9, C10): a `defaultdict(list)` fold distributes the processed
ids over key buckets, so with distinct input ids the buckets are pairwise
disjoint duplicate-free lists. -/

namespace DuplicateDetector

/-- All ids stored in a bucket list. -/
def bucketIds (bs : List (κ × List ℤ)) : List ℤ := (bs.map Prod.snd).flatten

lemma bucketIds_cons (b : κ × List ℤ) (rest : List (κ × List ℤ)) :
    bucketIds (b :: rest) = b.2 ++ bucketIds rest := rfl

lemma bucketAdd_perm [DecidableEq κ] (k : κ) (v : ℤ) :
    ∀ bs : List (κ × List ℤ), (bucketIds (bucketAdd k v bs)).Perm (v :: bucketIds bs) := by
  intro bs
  induction bs with
  | nil => simp [bucketAdd, bucketIds]
  | cons b rest ih =>
    obtain ⟨k0, vs⟩ := b
    by_cases hk : k0 = k
    · rw [show bucketAdd k v ((k0, vs) :: rest) = (k0, vs ++ [v]) :: rest from by
        simp [bucketAdd, hk]]
      rw [bucketIds_cons, bucketIds_cons]
      have h1 : (vs ++ [v]) ++ bucketIds rest = vs ++ (v :: bucketIds rest) := by simp
      rw [h1]
      exact List.perm_middle
    · rw [show bucketAdd k v ((k0, vs) :: rest) = (k0, vs) :: bucketAdd k v rest from by
        simp [bucketAdd, hk]]
      rw [bucketIds_cons, bucketIds_cons]
      exact (ih.append_left vs).trans List.perm_middle

/-- The `defaultdict(list)` bucket fold, for any step function that skips
keyless features and appends the feature id to its key's bucket: the stored
ids are a permutation of the keyed features' ids (in pass order). -/
lemma bucketStep_perm [DecidableEq κ] (key : Feature → Option κ)
    (step : List (κ × List ℤ) → Feature → List (κ × List ℤ))
    (hstep : ∀ bs f, step bs f =
      match key f with | none => bs | some k => bucketAdd k f.id bs) :
    ∀ (features : List Feature) (bs : List (κ × List ℤ)),
      (bucketIds (features.foldl step bs)).Perm
        (bucketIds bs ++ features.filterMap fun f => (key f).map fun _ => f.id) := by
  intro features
  induction features with
  | nil => intro bs; simp
  | cons f rest ih =>
    intro bs
    show (bucketIds (rest.foldl step (step bs f))).Perm _
    cases hk : key f with
    | none =>
      rw [hstep bs f, hk]
      have := ih bs
      simpa [List.filterMap_cons, hk] using this
    | some k =>
      rw [hstep bs f, hk]
      have h1 := ih (bucketAdd k f.id bs)
      have h3 : (bucketIds (bucketAdd k f.id bs) ++
            rest.filterMap fun f => (key f).map fun _ => f.id).Perm
          ((f.id :: bucketIds bs) ++ rest.filterMap fun f => (key f).map fun _ => f.id) :=
        (bucketAdd_perm k f.id bs).append_right _
      have h4 : ((f.id :: bucketIds bs) ++
            rest.filterMap fun f => (key f).map fun _ => f.id).Perm
          (bucketIds bs ++ f.id :: rest.filterMap fun f => (key f).map fun _ => f.id) :=
        List.perm_middle.symm
      have := (h1.trans h3).trans h4
      simpa [List.filterMap_cons, hk] using this

lemma filterMap_key_sublist (key : Feature → Option κ) :
    ∀ features : List Feature,
      (features.filterMap fun f => (key f).map fun _ => f.id).Sublist
        (features.map Feature.id) := by
  intro features
  induction features with
  | nil => simp
  | cons f rest ih =>
    cases hk : key f with
    | none =>
      rw [List.filterMap_cons, hk]
      exact ih.trans (List.sublist_cons_self _ _)
    | some k =>
      rw [List.filterMap_cons, hk]
      exact ih.cons₂ f.id

/-- With distinct feature ids, the bucket fold yields buckets that are
duplicate-free and pairwise disjoint, and every stored id is the id of a
keyed feature of the pass. -/
lemma bucketFold_nodup [DecidableEq κ] (key : Feature → Option κ)
    (step : List (κ × List ℤ) → Feature → List (κ × List ℤ))
    (hstep : ∀ bs f, step bs f =
      match key f with | none => bs | some k => bucketAdd k f.id bs)
    (features : List Feature) (hnodup : (features.map Feature.id).Nodup) :
    (∀ b ∈ features.foldl step [], b.2.Nodup) ∧
    List.Pairwise (fun a b : κ × List ℤ => a.2.Disjoint b.2) (features.foldl step []) ∧
    (∀ cid, cid ∈ bucketIds (features.foldl step []) →
      ∃ f ∈ features, f.id = cid ∧ (key f).isSome = true) := by
  have hperm := bucketStep_perm key step hstep features []
  have hperm' : (bucketIds (features.foldl step [])).Perm
      (features.filterMap fun f => (key f).map fun _ => f.id) := by
    simpa [bucketIds] using hperm
  have hsubmap : (features.filterMap fun f => (key f).map fun _ => f.id).Nodup :=
    (filterMap_key_sublist key features).nodup hnodup
  have hids : (bucketIds (features.foldl step [])).Nodup := hperm'.nodup_iff.mpr hsubmap
  have hflat := List.nodup_flatten.mp (by simpa [bucketIds] using hids)
  refine ⟨?_, ?_, ?_⟩
  · intro b hb
    exact hflat.1 b.2 (List.mem_map_of_mem Prod.snd hb)
  · have := hflat.2
    exact (List.pairwise_map.mp this)
  · intro cid hcid
    have := hperm'.mem_iff.mp hcid
    obtain ⟨f, hf, hmap⟩ := List.mem_filterMap.mp this
    cases hk : key f with
    | none => rw [hk] at hmap; exact Option.noConfusion hmap
    | some k =>
      rw [hk] at hmap
      have : f.id = cid := by simpa using hmap
      exact ⟨f, hf, this, by rw [hk]; rfl⟩

/-- Groups created from buckets with at least two members: pairwise
disjoint, each of size ≥ 2, with members drawn from the keyed features. -/
lemma bucketGroups_output [DecidableEq κ] (key : Feature → Option κ)
    (step : List (κ × List ℤ) → Feature → List (κ × List ℤ))
    (hstep : ∀ bs f, step bs f =
      match key f with | none => bs | some k => bucketAdd k f.id bs)
    (features : List Feature) (hnodup : (features.map Feature.id).Nodup)
    (mk : κ × List ℤ → DuplicateGroup)
    (hmk : ∀ b, (mk b).feature_ids = b.2.toFinset) :
    List.Pairwise (fun a b => Disjoint a.feature_ids b.feature_ids)
      ((features.foldl step []).filterMap fun b =>
        if 1 < b.2.length then some (mk b) else none) ∧
    ∀ g ∈ (features.foldl step []).filterMap
        (fun b => if 1 < b.2.length then some (mk b) else none),
      (∃ b ∈ features.foldl step [], 1 < b.2.length ∧ g = mk b) ∧
      2 ≤ g.feature_ids.card ∧
      ∀ fid ∈ g.feature_ids, ∃ f ∈ features, f.id = fid ∧ (key f).isSome = true := by
  obtain ⟨hbnodup, hbdisj, hbmem⟩ := bucketFold_nodup key step hstep features hnodup
  constructor
  · refine hbdisj.filterMap _ ?_
    intro a a' hdisj g hg g' hg'
    have hga : g = mk a := by
      by_cases hl : 1 < a.2.length
      · rw [if_pos hl] at hg; exact (Option.some.inj hg).symm
      · rw [if_neg hl] at hg; exact absurd hg (Option.noConfusion)
    have hga' : g' = mk a' := by
      by_cases hl : 1 < a'.2.length
      · rw [if_pos hl] at hg'; exact (Option.some.inj hg').symm
      · rw [if_neg hl] at hg'; exact absurd hg' (Option.noConfusion)
    subst hga hga'
    rw [Finset.disjoint_left]
    intro x hx hx'
    rw [hmk, List.mem_toFinset] at hx hx'
    exact hdisj hx hx'
  · intro g hg
    obtain ⟨b, hb, hbg⟩ := List.mem_filterMap.mp hg
    have hl : 1 < b.2.length := by
      by_cases hl : 1 < b.2.length
      · exact hl
      · rw [if_neg hl] at hbg; exact Option.noConfusion hbg
    rw [if_pos hl] at hbg
    have hgb : g = mk b := (Option.some.inj hbg).symm
    refine ⟨⟨b, hb, hl, hgb⟩, ?_, ?_⟩
    · rw [hgb, hmk, List.toFinset_card_of_nodup (hbnodup b hb)]
      exact hl
    · intro fid hfid
      rw [hgb, hmk, List.mem_toFinset] at hfid
      refine hbmem fid ?_
      unfold bucketIds
      rw [List.mem_flatten]
      exact ⟨b.2, List.mem_map_of_mem Prod.snd hb, hfid⟩

/-- Output facts about `_detect_by_hash` under distinct feature ids. -/
lemma detectByHash_output (ops : GeomOps) (chk : GeometryChecker)
    (features : List Feature) (hnodup : (features.map Feature.id).Nodup) :
    List.Pairwise (fun a b => Disjoint a.feature_ids b.feature_ids)
      (detectByHash ops chk features) ∧
    ∀ g ∈ detectByHash ops chk features,
      g.detection_type = "geometry" ∧ g.confidence_score = 1 ∧
      g.match_reason = "Exact WKB match" ∧ 2 ≤ g.feature_ids.card ∧
      ∀ fid ∈ g.feature_ids, ∃ f ∈ features, f.id = fid ∧ f.geom.isNull = false := by
  have h := bucketGroups_output
    (fun f : Feature => if f.geom.isNull then (none : Option String)
      else some (GeometryChecker.hash_geometry ops chk f.geom))
    (fun bs f => if f.geom.isNull then bs
      else bucketAdd (GeometryChecker.hash_geometry ops chk f.geom) f.id bs)
    (by
      intro bs f
      by_cases hn : f.geom.isNull = true
      · simp [hn]
      · simp [hn])
    features hnodup
    (fun b => { feature_ids := b.2.toFinset, detection_type := "geometry",
                confidence_score := 1, match_reason := "Exact WKB match",
                suggested_keep := none, metadata := [] })
    (fun b => rfl)
  refine ⟨h.1, ?_⟩
  intro g hg
  obtain ⟨⟨b, _, _, hgb⟩, hcard, hmem⟩ := h.2 g hg
  subst hgb
  refine ⟨rfl, rfl, rfl, hcard, ?_⟩
  intro fid hfid
  obtain ⟨f, hf, hfid', hsome⟩ := hmem fid hfid
  refine ⟨f, hf, hfid', ?_⟩
  by_cases hn : f.geom.isNull = true
  · simp [hn] at hsome
  · revert hn; cases f.geom.isNull <;> simp

/-- Output facts about `_detect_attribute_duplicates` with a non-empty
field list, under distinct feature ids. -/
lemma detectAttribute_output (nfkc : String → String) (fields : List String)
    (normalize_attributes ignore_null : Bool) (features : List Feature)
    (hnodup : (features.map Feature.id).Nodup) (hne : fields.isEmpty = false) :
    ∃ groups, detectAttributeDuplicates nfkc fields normalize_attributes ignore_null
        features = .ok groups ∧
      List.Pairwise (fun a b => Disjoint a.feature_ids b.feature_ids) groups ∧
      ∀ g ∈ groups, g.detection_type = "attribute" ∧ g.confidence_score = 1 ∧
        2 ≤ g.feature_ids.card ∧
        ∀ fid ∈ g.feature_ids, ∃ f ∈ features, f.id = fid := by
  have h := bucketGroups_output
    (fun f : Feature => AttributeChecker.get_key nfkc
      { fields := fields, normalize := normalize_attributes,
        ignore_null := ignore_null, case_sensitive := false, fuzzy_threshold := 0 } f)
    (fun bs f =>
      match AttributeChecker.get_key nfkc
        { fields := fields, normalize := normalize_attributes,
          ignore_null := ignore_null, case_sensitive := false, fuzzy_threshold := 0 } f with
      | none => bs
      | some key => bucketAdd key f.id bs)
    (by
      intro bs f
      beta_reduce
      cases hk : AttributeChecker.get_key nfkc
        { fields := fields, normalize := normalize_attributes,
          ignore_null := ignore_null, case_sensitive := false, fuzzy_threshold := 0 } f
        <;> simp [hk])
    features hnodup
    (fun b => { feature_ids := b.2.toFinset, detection_type := "attribute",
                confidence_score := 1,
                match_reason := "Matching fields: " ++ String.intercalate ", " fields,
                suggested_keep := none, metadata := [("key", b.1)] })
    (fun b => rfl)
  refine ⟨_, ?_, h.1, ?_⟩
  · unfold detectAttributeDuplicates
    rw [if_neg (by rw [hne]; exact Bool.noConfusion)]
  · intro g hg
    obtain ⟨⟨b, _, _, hgb⟩, hcard, hmem⟩ := h.2 g hg
    subst hgb
    refine ⟨rfl, rfl, hcard, ?_⟩
    intro fid hfid
    obtain ⟨f, hf, hfid', _⟩ := hmem fid hfid
    exact ⟨f, hf, hfid'⟩

/-- A successful cache lookup returns a stored feature with the looked-up
id (the cache is the dict `{f.id(): f}`). -/
lemma featureCacheFind_mem (features : List Feature) (cid : ℤ) (cf : Feature) :
    featureCacheFind features cid = some cf → cf ∈ features ∧ cf.id = cid := by
  unfold featureCacheFind
  suffices h : ∀ (acc : Option Feature),
      features.foldl (fun acc f => if f.id = cid then some f else acc) acc = some cf →
      (cf ∈ features ∧ cf.id = cid) ∨ acc = some cf by
    intro hfind
    rcases h none hfind with h | h
    · exact h
    · exact Option.noConfusion h
  induction features with
  | nil => intro acc h; exact Or.inr h
  | cons f rest ih =>
    intro acc h
    rcases ih (if f.id = cid then some f else acc) h with h | h
    · exact Or.inl ⟨List.mem_cons_of_mem f h.1, h.2⟩
    · by_cases hf : f.id = cid
      · rw [if_pos hf] at h
        have : f = cf := Option.some.inj h
        subst this
        exact Or.inl ⟨List.mem_cons_self f rest, hf⟩
      · rw [if_neg hf] at h
        exact Or.inr h

/-- When the incoming groups are pairwise disjoint and none of their members
is registered yet, consolidation appends every group unchanged. -/
lemma consolidateGo_of_disjoint :
    ∀ (groups consolidated : List DuplicateGroup) (fmap : ℤ → Option ℕ),
      (∀ g ∈ groups, ∀ fid ∈ g.feature_ids, fmap fid = none) →
      List.Pairwise (fun a b => Disjoint a.feature_ids b.feature_ids) groups →
      consolidateGo groups consolidated fmap = consolidated ++ groups := by
  intro groups
  induction groups with
  | nil => intro consolidated fmap _ _; simp [consolidateGo]
  | cons g rest ih =>
    intro consolidated fmap hnone hdisj
    have hfind : (setIterList g.feature_ids).findSome? fmap = none := by
      rw [List.findSome?_eq_none_iff]
      intro fid hfid
      exact hnone g (List.mem_cons_self g rest) fid ((mem_setIterList fid _).mp hfid)
    show (match (setIterList g.feature_ids).findSome? fmap with
      | some idx => consolidateGo rest (listUpdate consolidated idx fun eg => eg.merge_with g)
          fun x => if x ∈ g.feature_ids then some idx else fmap x
      | none => consolidateGo rest (consolidated ++ [g])
          fun x => if x ∈ g.feature_ids then some consolidated.length else fmap x) =
        consolidated ++ g :: rest
    rw [hfind]
    have hrest := ih (consolidated ++ [g])
      (fun x => if x ∈ g.feature_ids then some consolidated.length else fmap x)
      (by
        intro g' hg' fid hfid
        have hdisjhead := (List.pairwise_cons.mp hdisj).1 g' hg'
        show (if fid ∈ g.feature_ids then some consolidated.length else fmap fid) = none
        rw [if_neg (Finset.disjoint_right.mp hdisjhead hfid)]
        exact hnone g' (List.mem_cons_of_mem g hg') fid hfid)
      (List.pairwise_cons.mp hdisj).2
    rw [hrest, List.append_assoc]
    rfl

/-- `_consolidate_groups` is the identity on pairwise-disjoint group lists
(as produced by every single detection pass). -/
lemma consolidateGroups_of_disjoint (groups : List DuplicateGroup)
    (hdisj : List.Pairwise (fun a b => Disjoint a.feature_ids b.feature_ids) groups) :
    consolidateGroups groups = groups := by
  unfold consolidateGroups
  rw [consolidateGo_of_disjoint groups [] (fun _ => none) (fun _ _ _ _ => rfl) hdisj]
  rfl

end DuplicateDetector

lemma intList_min?_eq_some_iff {a : ℤ} {xs : List ℤ} :
    xs.min? = some a ↔ a ∈ xs ∧ ∀ b ∈ xs, a ≤ b :=
  @List.min?_eq_some_iff ℤ a _ _ ⟨@fun _ _ h1 h2 => le_antisymm h1 h2⟩
    (fun x => le_refl x) (fun x y => min_choice x y) (fun _ _ _ => le_min_iff) xs

namespace PriorityResolver

lemma dictInsert_keys (k : ℤ) (v : Feature) :
    ∀ (l : List (ℤ × Feature)) (x : ℤ),
      x ∈ (dictInsert k v l).map Prod.fst ↔ x = k ∨ x ∈ l.map Prod.fst := by
  intro l
  induction l with
  | nil => intro x; simp [dictInsert]
  | cons p rest ih =>
    intro x
    obtain ⟨k0, v0⟩ := p
    by_cases hk : k0 = k
    · subst hk
      rw [show dictInsert k0 v ((k0, v0) :: rest) = (k0, v) :: rest from by
        simp [dictInsert]]
      simp
    · rw [show dictInsert k v ((k0, v0) :: rest) = (k0, v0) :: dictInsert k v rest from by
        simp [dictInsert, hk]]
      simp [ih]
      tauto

lemma fetchFeatures_keys (layer : Layer) (fids : Finset ℤ) (x : ℤ) :
    x ∈ (fetchFeatures layer fids).map Prod.fst ↔
      x ∈ (layer.features.filter fun f => f.id ∈ fids).map Feature.id := by
  unfold fetchFeatures
  suffices h : ∀ (fs : List Feature) (acc : List (ℤ × Feature)),
      (x ∈ (fs.foldl (fun acc f => dictInsert f.id f acc) acc).map Prod.fst ↔
        x ∈ acc.map Prod.fst ∨ x ∈ fs.map Feature.id) by
    rw [h (layer.features.filter fun f => f.id ∈ fids) []]
    simp
  intro fs
  induction fs with
  | nil => intro acc; simp
  | cons f rest ih =>
    intro acc
    rw [List.foldl_cons, ih (dictInsert f.id f acc)]
    rw [dictInsert_keys]
    simp
    tauto

/-- The fid-fallback resolution: with no field, completeness, or area rule
configured and `fid_fallback` on, a resolvable group of size ≥ 2 whose
members all exist in the layer gets the smallest member id as
`suggested_keep`. -/
lemma resolveGroup_fid_fallback (strptime : String → String → Option ℤ)
    (layer : Layer) (rules : PriorityRules) (g : DuplicateGroup)
    (hfield : rules.field = none) (hcomp : rules.completeness = false)
    (harea : rules.area = none) (hfb : rules.fid_fallback = true)
    (hcard : 2 ≤ g.feature_ids.card)
    (hin : ∀ fid ∈ g.feature_ids, ∃ f ∈ layer.features, f.id = fid) :
    ∃ m, resolveGroup strptime layer rules g = some m ∧ m ∈ g.feature_ids ∧
      ∀ x ∈ g.feature_ids, m ≤ x := by
  have hkeys : ∀ x, x ∈ (fetchFeatures layer g.feature_ids).map Prod.fst ↔
      x ∈ g.feature_ids := by
    intro x
    rw [fetchFeatures_keys]
    constructor
    · intro hx
      obtain ⟨f, hf, hfx⟩ := List.mem_map.mp hx
      have := List.mem_filter.mp hf
      rw [← hfx]
      simpa using this.2
    · intro hx
      obtain ⟨f, hf, hfid⟩ := hin x hx
      refine List.mem_map.mpr ⟨f, List.mem_filter.mpr ⟨hf, by simpa [hfid] using hx⟩, hfid⟩
  have hne : (fetchFeatures layer g.feature_ids).map Prod.fst ≠ [] := by
    obtain ⟨fid, hfid⟩ := Finset.card_pos.mp (by omega : 0 < g.feature_ids.card)
    intro hnil
    have := (hkeys fid).mpr hfid
    rw [hnil] at this
    exact List.not_mem_nil fid this
  have hfetchne : (fetchFeatures layer g.feature_ids).isEmpty = false := by
    rcases hfe : fetchFeatures layer g.feature_ids with _ | ⟨p, rest⟩
    · rw [hfe] at hne
      exact absurd rfl hne
    · rfl
  obtain ⟨m, hm⟩ : ∃ m, ((fetchFeatures layer g.feature_ids).map Prod.fst).min? = some m := by
    rcases hc : (fetchFeatures layer g.feature_ids).map Prod.fst with _ | ⟨x, xs⟩
    · exact absurd hc hne
    · exact ⟨_, List.min?_cons⟩
  have hmspec := intList_min?_eq_some_iff.mp hm
  refine ⟨m, ?_, (hkeys m).mp hmspec.1, fun x hx => hmspec.2 x ((hkeys x).mpr hx)⟩
  unfold resolveGroup
  rw [if_neg (by omega)]
  rw [hfield, hcomp, harea, hfb]
  rw [if_neg (by rw [hfetchne]; exact Bool.noConfusion)]
  simp only [Bool.false_eq_true, if_false, if_true]
  exact hm

end PriorityResolver

namespace DuplicateDetector

lemma resolve_shape (strptime : String → String → Option ℤ) (layer : Layer)
    (rules : PriorityRules) (groups : List DuplicateGroup) :
    PriorityResolver.resolve strptime layer rules groups =
      groups.map fun g =>
        { g with suggested_keep := PriorityResolver.resolveGroup strptime layer rules g } :=
  rfl

lemma pairwise_disjoint_resolve (strptime : String → String → Option ℤ) (layer : Layer)
    (rules : PriorityRules) (groups : List DuplicateGroup)
    (h : List.Pairwise (fun a b => Disjoint a.feature_ids b.feature_ids) groups) :
    List.Pairwise (fun a b => Disjoint a.feature_ids b.feature_ids)
      (PriorityResolver.resolve strptime layer rules groups) := by
  rw [resolve_shape, List.pairwise_map]
  exact h

lemma consolidate_after_resolve (strptime : String → String → Option ℤ) (layer : Layer)
    (rules? : Option PriorityRules) (groups0 : List DuplicateGroup)
    (hdisj : List.Pairwise (fun a b => Disjoint a.feature_ids b.feature_ids) groups0) :
    consolidateGroups (match rules? with
      | some rules => PriorityResolver.resolve strptime layer rules groups0
      | none => groups0) =
      (match rules? with
      | some rules => PriorityResolver.resolve strptime layer rules groups0
      | none => groups0) := by
  cases rules? with
  | none => exact consolidateGroups_of_disjoint groups0 hdisj
  | some rules =>
    exact consolidateGroups_of_disjoint _
      (pairwise_disjoint_resolve strptime layer rules groups0 hdisj)

/-- Characterisation of a successful `detect()` run with distinct feature
ids: there is a pass output `groups0` — pairwise disjoint, every group of
size ≥ 2, every member the id of a processed feature (non-null in geometry
mode) — and the returned list is exactly `groups0` with priority resolution
applied when rules are configured (consolidation is the identity because
single-pass outputs are disjoint). -/
lemma detect_ok_master (ops : GeomOps) (nfkc : String → String)
    (strptime : String → String → Option ℤ)
    (spatialIndex : List Feature → Rect → List ℤ) (sampled : List Feature)
    (cfg : DetectorConfig) (layer : Layer) (groups : List DuplicateGroup)
    (hlayer : cfg.layer = some layer)
    (hok : detect ops nfkc strptime spatialIndex sampled cfg = .ok groups)
    (hnodup : ((runFeatures cfg layer sampled).map Feature.id).Nodup) :
    ∃ groups0 : List DuplicateGroup,
      List.Pairwise (fun a b => Disjoint a.feature_ids b.feature_ids) groups0 ∧
      (∀ g ∈ groups0, 2 ≤ g.feature_ids.card ∧
        ∀ fid ∈ g.feature_ids, ∃ f ∈ runFeatures cfg layer sampled, f.id = fid ∧
          (cfg.detection_type = "geometry" → f.geom.isNull = false)) ∧
      groups = (match cfg.priority_rules with
        | some rules => PriorityResolver.resolve strptime layer rules groups0
        | none => groups0) := by
  unfold detect at hok
  simp only [hlayer] at hok
  by_cases hv : layer.isValid = true
  swap
  · rw [if_pos hv] at hok
    exact Except.noConfusion hok
  rw [if_neg (by simp [hv])] at hok
  by_cases hmode : cfg.detection_type = "geometry"
  · rw [if_pos hmode] at hok
    by_cases htol : cfg.tolerance = 0
    · rw [if_pos htol] at hok
      simp only [Except.map] at hok
      obtain ⟨hdisj, hprops⟩ := detectByHash_output ops
        { tolerance := cfg.tolerance, compare_method := cfg.compare_method,
          decompose_multipart := cfg.decompose_multipart, precision := 8 }
        (runFeatures cfg layer sampled) hnodup
      refine ⟨_, hdisj, ?_, ?_⟩
      · intro g hg
        obtain ⟨_, _, _, hcard, hmem⟩ := hprops g hg
        refine ⟨hcard, fun fid hfid => ?_⟩
        obtain ⟨f, hf, hfid', hnn⟩ := hmem fid hfid
        exact ⟨f, hf, hfid', fun _ => hnn⟩
      · have := Except.ok.inj hok
        rw [← this, consolidate_after_resolve strptime layer cfg.priority_rules _ hdisj]
    · rw [if_neg htol] at hok
      simp only [Except.map] at hok
      obtain ⟨hdisj, hprops⟩ := detectByTolerance_output
        (fun g1 g2 t => GeometryChecker.compare ops
          { tolerance := cfg.tolerance, compare_method := cfg.compare_method,
            decompose_multipart := cfg.decompose_multipart, precision := 8 } g1 g2 (some t))
        (spatialIndex (runFeatures cfg layer sampled))
        (featureCacheFind (runFeatures cfg layer sampled)) cfg.tolerance
        (runFeatures cfg layer sampled)
        (fun fid => ∃ f ∈ runFeatures cfg layer sampled, f.id = fid ∧ f.geom.isNull = false)
        (fun f hf hnn => ⟨f, hf, rfl, hnn⟩)
        (fun cid cf hcf hnn =>
          ⟨cf, (featureCacheFind_mem (runFeatures cfg layer sampled) cid cf hcf).1,
            (featureCacheFind_mem (runFeatures cfg layer sampled) cid cf hcf).2, hnn⟩)
      refine ⟨_, hdisj, ?_, ?_⟩
      · intro g hg
        obtain ⟨_, _, hcard, hmem⟩ := hprops g hg
        refine ⟨hcard, fun fid hfid => ?_⟩
        obtain ⟨f, hf, hfid', hnn⟩ := hmem fid hfid
        exact ⟨f, hf, hfid', fun _ => hnn⟩
      · have := Except.ok.inj hok
        rw [← this, consolidate_after_resolve strptime layer cfg.priority_rules _ hdisj]
  · rw [if_neg hmode] at hok
    by_cases hfe : cfg.fields.isEmpty = true
    · unfold detectAttributeDuplicates at hok
      rw [if_pos hfe] at hok
      simp only [Except.map] at hok
      exact Except.noConfusion hok
    · have hfe' : cfg.fields.isEmpty = false := by
        revert hfe; cases cfg.fields.isEmpty <;> simp
      obtain ⟨groups0, heq, hdisj, hprops⟩ := detectAttribute_output nfkc cfg.fields
        cfg.normalize_attributes cfg.ignore_null (runFeatures cfg layer sampled) hnodup hfe'
      rw [heq] at hok
      simp only [Except.map] at hok
      refine ⟨groups0, hdisj, ?_, ?_⟩
      · intro g hg
        obtain ⟨_, _, hcard, hmem⟩ := hprops g hg
        refine ⟨hcard, fun fid hfid => ?_⟩
        obtain ⟨f, hf, hfid'⟩ := hmem fid hfid
        exact ⟨f, hf, hfid', fun hgeom => absurd hgeom hmode⟩
      · have := Except.ok.inj hok
        rw [← this, consolidate_after_resolve strptime layer cfg.priority_rules _ hdisj]


/-- In a list of features with pairwise distinct ids, an id determines the
feature. -/
lemma eq_of_mem_of_nodup_map :
    ∀ {l : List Feature}, (l.map Feature.id).Nodup →
      ∀ {f f' : Feature}, f ∈ l → f' ∈ l → f.id = f'.id → f = f' := by
  intro l
  induction l with
  | nil => intro _ f f' hf; exact absurd hf (List.not_mem_nil f)
  | cons a t ih =>
    intro hnodup f f' hf hf' hid
    rw [List.map_cons] at hnodup
    have hhead := (List.nodup_cons.mp hnodup).1
    have htail := (List.nodup_cons.mp hnodup).2
    rcases List.mem_cons.mp hf with hfa | hft
    · rcases List.mem_cons.mp hf' with hfa' | hft'
      · rw [hfa, hfa']
      · subst hfa
        exact absurd (hid ▸ List.mem_map_of_mem Feature.id hft') hhead
    · rcases List.mem_cons.mp hf' with hfa' | hft'
      · subst hfa'
        exact absurd (hid ▸ List.mem_map_of_mem Feature.id hft) hhead
      · exact ih htail hft hft' hid

/-- Membership in a resolved group list comes from a pass group with the
same feature ids and the fid chosen by `_resolve_group`. -/
lemma mem_resolve (strptime : String → String → Option ℤ) (layer : Layer)
    (rules : PriorityRules) (groups : List DuplicateGroup) (g : DuplicateGroup)
    (hg : g ∈ PriorityResolver.resolve strptime layer rules groups) :
    ∃ g0 ∈ groups, g = { g0 with
      suggested_keep := PriorityResolver.resolveGroup strptime layer rules g0 } := by
  rw [resolve_shape] at hg
  obtain ⟨g0, hg0, hmap⟩ := List.mem_map.mp hg
  exact ⟨g0, hg0, hmap.symm⟩

end DuplicateDetector

/-- Groups used by concrete counterexample/witness runs. -/
def cGroup (s : Finset ℤ) : DuplicateGroup :=
  { feature_ids := s, detection_type := "geometry", confidence_score := 1,
    match_reason := "", suggested_keep := none, metadata := [] }

/-- C1 (counterexample): `_consolidate_groups` does not produce disjoint
groups for overlapping candidates — a new group `{2,3}` overlapping two
previously accepted groups `{1,2}` and `{3,4}` is merged only into the
first, leaving feature 3 in two output groups, so the consolidated list is
not a partition. -/
theorem C1_counterexample_chained_overlap :
    (DuplicateDetector.consolidateGroups
        [cGroup {1, 2}, cGroup {3, 4}, cGroup {2, 3}]).map
      (fun g => setIterList g.feature_ids) = [[1, 2, 3], [3, 4]] ∧
    (3 : ℤ) ∈ ((DuplicateDetector.consolidateGroups
        [cGroup {1, 2}, cGroup {3, 4}, cGroup {2, 3}]).headD (cGroup ∅)).feature_ids ∧
    (3 : ℤ) ∈ (((DuplicateDetector.consolidateGroups
        [cGroup {1, 2}, cGroup {3, 4}, cGroup {2, 3}]).drop 1).headD (cGroup ∅)).feature_ids ∧
    ¬ Disjoint
      ((DuplicateDetector.consolidateGroups
        [cGroup {1, 2}, cGroup {3, 4}, cGroup {2, 3}]).headD (cGroup ∅)).feature_ids
      (((DuplicateDetector.consolidateGroups
        [cGroup {1, 2}, cGroup {3, 4}, cGroup {2, 3}]).drop 1).headD (cGroup ∅)).feature_ids := by
  refine ⟨by decide, by decide, by decide, ?_⟩
  intro h
  have h3a : (3 : ℤ) ∈ ((DuplicateDetector.consolidateGroups
      [cGroup {1, 2}, cGroup {3, 4}, cGroup {2, 3}]).headD (cGroup ∅)).feature_ids := by decide
  have h3b : (3 : ℤ) ∈ (((DuplicateDetector.consolidateGroups
      [cGroup {1, 2}, cGroup {3, 4}, cGroup {2, 3}]).drop 1).headD (cGroup ∅)).feature_ids := by
    decide
  exact (Finset.disjoint_left.mp h h3a) h3b

/-- C1 (amended): the group list returned by `detect()` is a partition —
for distinct input ids each single detection pass produces pairwise
disjoint groups, priority resolution preserves the id sets, and
consolidating a pairwise-disjoint list is the identity.  (The general
`_consolidate_groups` does not restore disjointness for arbitrary
overlapping candidates; see the counterexample.) -/
theorem C1_detect_partition :
    ∀ (ops : GeomOps) (nfkc : String → String) (strptime : String → String → Option ℤ)
      (spatialIndex : List Feature → Rect → List ℤ) (sampled : List Feature)
      (cfg : DuplicateDetector.DetectorConfig) (layer : Layer)
      (groups : List DuplicateGroup),
      cfg.layer = some layer →
      DuplicateDetector.detect ops nfkc strptime spatialIndex sampled cfg = .ok groups →
      ((DuplicateDetector.runFeatures cfg layer sampled).map Feature.id).Nodup →
      List.Pairwise (fun a b => Disjoint a.feature_ids b.feature_ids) groups := by
  intro ops nfkc strptime spatialIndex sampled cfg layer groups hlayer hok hnodup
  obtain ⟨groups0, hdisj, _, hshape⟩ := DuplicateDetector.detect_ok_master ops nfkc strptime
    spatialIndex sampled cfg layer groups hlayer hok hnodup
  rw [hshape]
  cases cfg.priority_rules with
  | none => exact hdisj
  | some rules =>
    exact DuplicateDetector.pairwise_disjoint_resolve strptime layer rules groups0 hdisj

/-- A concrete valid layer with two distinct point features. -/
def twoPointLayer : Layer :=
  { isValid := true, features := [featX, featY], fieldNames := [], geometryType := 0 }

/-- A geometry-mode exact-hash configuration over `twoPointLayer`. -/
def geoCfg : DuplicateDetector.DetectorConfig :=
  { layer := some twoPointLayer, detection_type := "geometry", tolerance := 0,
    compare_method := 0, decompose_multipart := false, fields := [],
    normalize_attributes := true, ignore_null := false, priority_rules := none,
    sample_mode := false, sample_size := 5000 }

/-- The group the concrete exact-hash run produces (both features hash to
the same digest under `trivialOps`). -/
def hashRunGroup : DuplicateGroup :=
  { feature_ids := ([1, 2] : List ℤ).toFinset, detection_type := "geometry",
    confidence_score := 1, match_reason := "Exact WKB match",
    suggested_keep := none, metadata := [] }

/-- C1 (witness): the partition property instantiated on a concrete
exact-hash run in which both features form one group. -/
theorem C1_partition_witness :
    List.Pairwise (fun a b => Disjoint a.feature_ids b.feature_ids) [hashRunGroup] :=
  C1_detect_partition trivialOps id (fun _ _ => none) (fun _ _ => []) [] geoCfg
    twoPointLayer [hashRunGroup] rfl (by rfl) (by decide)

/-- C5: `detect()` fails fast with no partial group list when the layer is
missing or invalid, and when attribute mode is selected with an empty field
list; in each case the result is an error, not a group list. -/
theorem C5_fail_fast_errors :
    (∀ (ops : GeomOps) (nfkc : String → String) (strptime : String → String → Option ℤ)
       (spatialIndex : List Feature → Rect → List ℤ) (sampled : List Feature)
       (cfg : DuplicateDetector.DetectorConfig), cfg.layer = none →
       DuplicateDetector.detect ops nfkc strptime spatialIndex sampled cfg =
         .error "Invalid or missing layer") ∧
    (∀ (ops : GeomOps) (nfkc : String → String) (strptime : String → String → Option ℤ)
       (spatialIndex : List Feature → Rect → List ℤ) (sampled : List Feature)
       (cfg : DuplicateDetector.DetectorConfig) (layer : Layer), cfg.layer = some layer →
       layer.isValid = false →
       DuplicateDetector.detect ops nfkc strptime spatialIndex sampled cfg =
         .error "Invalid or missing layer") ∧
    (∀ (ops : GeomOps) (nfkc : String → String) (strptime : String → String → Option ℤ)
       (spatialIndex : List Feature → Rect → List ℤ) (sampled : List Feature)
       (cfg : DuplicateDetector.DetectorConfig) (layer : Layer), cfg.layer = some layer →
       layer.isValid = true → cfg.detection_type ≠ "geometry" → cfg.fields = [] →
       DuplicateDetector.detect ops nfkc strptime spatialIndex sampled cfg =
         .error "No fields specified for attribute detection") := by
  refine ⟨?_, ?_, ?_⟩
  · intro ops nfkc strptime spatialIndex sampled cfg hnone
    unfold DuplicateDetector.detect
    rw [hnone]
  · intro ops nfkc strptime spatialIndex sampled cfg layer hsome hinvalid
    unfold DuplicateDetector.detect
    simp only [hsome]
    rw [if_pos (by simp [hinvalid])]
  · intro ops nfkc strptime spatialIndex sampled cfg layer hsome hvalid hmode hfields
    unfold DuplicateDetector.detect
    simp only [hsome]
    rw [if_neg (by simp [hvalid])]
    rw [if_neg hmode]
    unfold DuplicateDetector.detectAttributeDuplicates
    rw [if_pos (by rw [hfields]; rfl)]
    rfl

/-- C5 (witness): a configuration with a missing layer produces the fatal
configuration error. -/
theorem C5_fail_fast_witness :
    DuplicateDetector.detect trivialOps id (fun _ _ => none) (fun _ _ => [])
      [] { geoCfg with layer := none } = .error "Invalid or missing layer" :=
  C5_fail_fast_errors.1 trivialOps id (fun _ _ => none) (fun _ _ => [])
    [] { geoCfg with layer := none } rfl

/-- C9: every group returned by `detect()` has at least two distinct
feature ids, in every mode, for layers (or samples) with distinct ids. -/
theorem C9_minimum_group_size :
    ∀ (ops : GeomOps) (nfkc : String → String) (strptime : String → String → Option ℤ)
      (spatialIndex : List Feature → Rect → List ℤ) (sampled : List Feature)
      (cfg : DuplicateDetector.DetectorConfig) (layer : Layer)
      (groups : List DuplicateGroup),
      cfg.layer = some layer →
      DuplicateDetector.detect ops nfkc strptime spatialIndex sampled cfg = .ok groups →
      ((DuplicateDetector.runFeatures cfg layer sampled).map Feature.id).Nodup →
      ∀ g ∈ groups, 2 ≤ g.feature_ids.card := by
  intro ops nfkc strptime spatialIndex sampled cfg layer groups hlayer hok hnodup g hg
  obtain ⟨groups0, _, hprops, hshape⟩ := DuplicateDetector.detect_ok_master ops nfkc strptime
    spatialIndex sampled cfg layer groups hlayer hok hnodup
  rw [hshape] at hg
  cases hrules : cfg.priority_rules with
  | none =>
    rw [hrules] at hg
    exact (hprops g hg).1
  | some rules =>
    rw [hrules] at hg
    obtain ⟨g0, hg0, hgeq⟩ := DuplicateDetector.mem_resolve strptime layer rules groups0 g hg
    rw [hgeq]
    exact (hprops g0 hg0).1

/-- C9 (witness): the minimum-size bound instantiated on the concrete
exact-hash run producing the single group `{1, 2}`. -/
theorem C9_minimum_size_witness : 2 ≤ hashRunGroup.feature_ids.card :=
  C9_minimum_group_size trivialOps id (fun _ _ => none) (fun _ _ => []) [] geoCfg
    twoPointLayer [hashRunGroup] rfl (by rfl) (by decide) hashRunGroup
    (List.mem_singleton.mpr rfl)

/-- C10: in geometry mode (exact-hash and tolerance paths alike) a feature
whose geometry is null is never a member of any returned group — both scans
skip null geometries before hashing or comparison — even though every null
geometry hashes to the shared sentinel `"NULL"`. -/
theorem C10_null_geometry_never_grouped :
    (∀ (ops : GeomOps) (nfkc : String → String) (strptime : String → String → Option ℤ)
       (spatialIndex : List Feature → Rect → List ℤ) (sampled : List Feature)
       (cfg : DuplicateDetector.DetectorConfig) (layer : Layer)
       (groups : List DuplicateGroup),
       cfg.layer = some layer →
       cfg.detection_type = "geometry" →
       DuplicateDetector.detect ops nfkc strptime spatialIndex sampled cfg = .ok groups →
       ((DuplicateDetector.runFeatures cfg layer sampled).map Feature.id).Nodup →
       ∀ f ∈ DuplicateDetector.runFeatures cfg layer sampled, f.geom.isNull = true →
         ∀ g ∈ groups, f.id ∉ g.feature_ids) ∧
    (∀ (ops : GeomOps) (chk : GeometryChecker) (g : Geom), g.isNull = true →
       GeometryChecker.hash_geometry ops chk g = "NULL") := by
  constructor
  · intro ops nfkc strptime spatialIndex sampled cfg layer groups hlayer hmode hok hnodup
      f hf hnull g hg hfid
    obtain ⟨groups0, _, hprops, hshape⟩ := DuplicateDetector.detect_ok_master ops nfkc
      strptime spatialIndex sampled cfg layer groups hlayer hok hnodup
    rw [hshape] at hg
    have hfid0 : ∃ g0 ∈ groups0, f.id ∈ g0.feature_ids := by
      cases hrules : cfg.priority_rules with
      | none =>
        rw [hrules] at hg
        exact ⟨g, hg, hfid⟩
      | some rules =>
        rw [hrules] at hg
        obtain ⟨g0, hg0, hgeq⟩ := DuplicateDetector.mem_resolve strptime layer rules
          groups0 g hg
        refine ⟨g0, hg0, ?_⟩
        rw [hgeq] at hfid
        exact hfid
    obtain ⟨g0, hg0, hfid0⟩ := hfid0
    obtain ⟨f', hf', hfid', hnn⟩ := (hprops g0 hg0).2 f.id hfid0
    have : f = f' := DuplicateDetector.eq_of_mem_of_nodup_map hnodup hf hf' hfid'.symm
    rw [this, hnn hmode] at hnull
    exact Bool.noConfusion hnull
  · intro ops chk g hnull
    unfold GeometryChecker.hash_geometry
    rw [hnull]
    rfl

/-- A feature with a null geometry used by concrete runs. -/
def featNull : Feature := ⟨3, nullGeom, []⟩

/-- The two-point layer extended with a null-geometry feature. -/
def threeFeatureLayer : Layer :=
  { isValid := true, features := [featX, featY, featNull], fieldNames := [],
    geometryType := 0 }

/-- C10 (witness): in a concrete exact-hash run over a layer containing a
null-geometry feature (id 3), that id appears in no returned group. -/
theorem C10_null_geometry_witness : (3 : ℤ) ∉ hashRunGroup.feature_ids :=
  C10_null_geometry_never_grouped.1 trivialOps id (fun _ _ => none) (fun _ _ => []) []
    { geoCfg with layer := some threeFeatureLayer } threeFeatureLayer [hashRunGroup]
    rfl rfl (by rfl) (by decide) featNull (by decide) rfl hashRunGroup
    (List.mem_singleton.mpr rfl)

/-- Priority rules with only the id fallback enabled. -/
def fidOnlyRules : PriorityRules :=
  { field := none, field_order := 0, completeness := false, area := none,
    fid_fallback := true }

/-- C4: for every group in the final list returned by `detect()`, when the
priority rules enable only the id fallback, `suggested_keep` is the
smallest feature id of that final group's `feature_ids` set.  (Resolution
runs before consolidation in the source, but every single pass produces
pairwise-disjoint groups, so consolidation never merges and each final
group's id set equals the id set the resolver saw.) -/
theorem C4_fid_fallback_suggested_keep :
    ∀ (ops : GeomOps) (nfkc : String → String) (strptime : String → String → Option ℤ)
      (spatialIndex : List Feature → Rect → List ℤ) (sampled : List Feature)
      (cfg : DuplicateDetector.DetectorConfig) (layer : Layer) (rules : PriorityRules)
      (groups : List DuplicateGroup),
      cfg.layer = some layer →
      cfg.priority_rules = some rules →
      rules.field = none → rules.completeness = false → rules.area = none →
      rules.fid_fallback = true →
      ((DuplicateDetector.runFeatures cfg layer sampled).map Feature.id).Nodup →
      (∀ f ∈ DuplicateDetector.runFeatures cfg layer sampled, f ∈ layer.features) →
      DuplicateDetector.detect ops nfkc strptime spatialIndex sampled cfg = .ok groups →
      ∀ g ∈ groups, ∃ m, g.suggested_keep = some m ∧ m ∈ g.feature_ids ∧
        ∀ x ∈ g.feature_ids, m ≤ x := by
  intro ops nfkc strptime spatialIndex sampled cfg layer rules groups hlayer hrules
    hfield hcomp harea hfb hnodup hsub hok g hg
  obtain ⟨groups0, _, hprops, hshape⟩ := DuplicateDetector.detect_ok_master ops nfkc
    strptime spatialIndex sampled cfg layer groups hlayer hok hnodup
  rw [hshape, hrules] at hg
  obtain ⟨g0, hg0, hgeq⟩ := DuplicateDetector.mem_resolve strptime layer rules groups0 g hg
  have hin : ∀ fid ∈ g0.feature_ids, ∃ f ∈ layer.features, f.id = fid := by
    intro fid hfid
    obtain ⟨f, hf, hfid', _⟩ := (hprops g0 hg0).2 fid hfid
    exact ⟨f, hsub f hf, hfid'⟩
  obtain ⟨m, hres, hmem, hmin⟩ := PriorityResolver.resolveGroup_fid_fallback strptime
    layer rules g0 hfield hcomp harea hfb (hprops g0 hg0).1 hin
  refine ⟨m, ?_, ?_, ?_⟩
  · rw [hgeq]
    exact hres
  · rw [hgeq]
    exact hmem
  · rw [hgeq]
    exact hmin

/-- The hash-run group after fid-fallback resolution suggests keeping the
smallest id. -/
def hashRunGroupKeep1 : DuplicateGroup :=
  { feature_ids := ([1, 2] : List ℤ).toFinset, detection_type := "geometry",
    confidence_score := 1, match_reason := "Exact WKB match",
    suggested_keep := some 1, metadata := [] }

/-- C4 (witness): on the concrete exact-hash run with fid-fallback-only
rules, the returned group's `suggested_keep` is its minimal id. -/
theorem C4_fid_fallback_witness :
    ∃ m, hashRunGroupKeep1.suggested_keep = some m ∧ m ∈ hashRunGroupKeep1.feature_ids ∧
      ∀ x ∈ hashRunGroupKeep1.feature_ids, m ≤ x :=
  C4_fid_fallback_suggested_keep trivialOps id (fun _ _ => none) (fun _ _ => []) []
    { geoCfg with priority_rules := some fidOnlyRules } twoPointLayer fidOnlyRules
    [hashRunGroupKeep1] rfl rfl rfl rfl rfl rfl (by decide) (fun f hf => hf) (by rfl)
    hashRunGroupKeep1 (List.mem_singleton.mpr rfl)

end DupliCheck
